import Mathlib

/-!
Verification development for the grapho in-memory graph database
(Go sources: packages `parser`, `catalog`, `executor`, `server`).

The Go code is shallowly embedded: Go maps over string keys become
association lists (`StrMap`), Go pointers/`nil` become `Option`, fallible
functions return `Except String`, and the `uint64`/`int64` counters
(catalog versions, node ids, log offsets) are modelled as `Nat` (no code
path depends on wrap-around).  Iteration order of a Go map is random; the
association-list order is a deterministic stand-in, and no theorem below
depends on which element of a map is visited first.

Single quote and backtick characters are spelled via `Char.ofNat` / `\x27`
escapes throughout.
-/

namespace Grapho

/-- Association-list model of a Go `map[string]V`. -/
abbrev StrMap (α : Type) : Type := List (String × α)

namespace StrMap

def get? {α : Type} : StrMap α → String → Option α
  | [], _ => none
  | (k, v) :: rest, key => if k = key then some v else get? rest key

/-- Go map assignment `m[k] = v`: replace an existing binding, else add one. -/
def put {α : Type} : StrMap α → String → α → StrMap α
  | [], key, v => [(key, v)]
  | (k, v') :: rest, key, v =>
    if k = key then (key, v) :: rest else (k, v') :: put rest key v

/-- Go `delete(m, k)`. -/
def del {α : Type} : StrMap α → String → StrMap α
  | [], _ => []
  | (k, v) :: rest, key => if k = key then rest else (k, v) :: del rest key

def contains {α : Type} (m : StrMap α) (key : String) : Bool :=
  (m.get? key).isSome

end StrMap

/-! From here on, package `catalog`: the typed schema model (types_test.go /
part_007 / store_test.go sources). -/

namespace catalog

inductive Cardinality where
  | One
  | Many
deriving DecidableEq

export Cardinality (One Many)

inductive BaseType where
  | BaseString
  | BaseText
  | BaseInt
  | BaseFloat
  | BaseBool
  | BaseUUID
  | BaseDate
  | BaseTime
  | BaseDateTime
  | BaseJSON
  | BaseBlob
  | BaseArray
  | BaseEnum
deriving DecidableEq

export BaseType (BaseString BaseText BaseInt BaseFloat BaseBool BaseUUID BaseDate BaseTime BaseDateTime BaseJSON BaseBlob BaseArray BaseEnum)

/-- Go `catalog.TypeSpec` (recursive through the `Elem *TypeSpec` pointer,
hence an inductive rather than a structure). -/
inductive TypeSpec where
  | mk (Base : BaseType) (Elem : Option TypeSpec) (EnumVals : List String)

def TypeSpec.Base : TypeSpec → BaseType
  | .mk b _ _ => b

def TypeSpec.Elem : TypeSpec → Option TypeSpec
  | .mk _ e _ => e

def TypeSpec.EnumVals : TypeSpec → List String
  | .mk _ _ vs => vs

/-- Go field `Type` is spelled `Typ` here (`Type` is a Lean keyword). -/
structure FieldSpec where
  Name : String
  Typ : TypeSpec
  Unique : Bool
  NotNull : Bool
  DefaultRaw : Option String

structure IndexSpec where
  Field : String
  Unique : Bool
deriving DecidableEq

structure NodeType where
  Name : String
  Fields : StrMap FieldSpec
  PK : String
  Indexes : StrMap IndexSpec

structure EdgeEndpoint where
  Label : String
  Card : Cardinality
deriving DecidableEq

structure EdgeType where
  Name : String
  From : EdgeEndpoint
  To : EdgeEndpoint
  Props : StrMap FieldSpec

structure Catalog where
  Version : Nat
  Nodes : StrMap NodeType
  Edges : StrMap EdgeType

/-- Go `cloneType`. -/
def cloneType : TypeSpec → TypeSpec
  | .mk b none vs => .mk b none vs
  | .mk b (some e) vs => .mk b (some (cloneType e)) vs

/-- Field-spec copy performed inside `cloneNodeType` / `cloneEdgeType`
(copies the `DefaultRaw` pointee). -/
def cloneFieldSpec (v : FieldSpec) : FieldSpec :=
  { Name := v.Name
    Typ := cloneType v.Typ
    Unique := v.Unique
    NotNull := v.NotNull
    DefaultRaw := match v.DefaultRaw with
      | none => none
      | some d => some d }

/-- Go `cloneNodeType` (the `nil` receiver case cannot arise through a
`StrMap`, whose stored values are always present). -/
def cloneNodeType (n : NodeType) : NodeType :=
  { Name := n.Name
    Fields := n.Fields.map (fun kv => (kv.1, cloneFieldSpec kv.2))
    PK := n.PK
    Indexes := n.Indexes.map (fun kv => (kv.1, kv.2)) }

/-- Go `cloneEdgeType`. -/
def cloneEdgeType (e : EdgeType) : EdgeType :=
  { Name := e.Name
    From := e.From
    To := e.To
    Props := e.Props.map (fun kv => (kv.1, cloneFieldSpec kv.2)) }

/-- Go `(*Catalog).Clone`. -/
def Catalog.Clone (c : Catalog) : Catalog :=
  { Version := c.Version
    Nodes := c.Nodes.map (fun kv => (kv.1, cloneNodeType kv.2))
    Edges := c.Edges.map (fun kv => (kv.1, cloneEdgeType kv.2)) }

/-- Go `NewEmpty`. -/
def NewEmpty : Catalog :=
  { Version := 0, Nodes := [], Edges := [] }

/-! DDL payloads (part_007). -/

structure FieldPayload where
  Name : String
  Typ : TypeSpec
  PrimaryKey : Bool
  Unique : Bool
  NotNull : Bool
  DefaultRaw : Option String

structure CreateNodePayload where
  Name : String
  Fields : List FieldPayload

structure CreateEdgePayload where
  Name : String
  From : EdgeEndpoint
  To : EdgeEndpoint
  Props : List FieldPayload

structure NodeAlterAction where
  Typ : String
  Field : Option FieldPayload
  FieldName : String

structure AlterNodePayload where
  Name : String
  Actions : List NodeAlterAction

structure EdgeAlterAction where
  Typ : String
  PropF : Option FieldPayload
  PropName : String
  Endpoint : String
  NewEndpoint : Option EdgeEndpoint

structure AlterEdgePayload where
  Name : String
  Actions : List EdgeAlterAction

structure DropNodePayload where
  Name : String

structure DropEdgePayload where
  Name : String

inductive DDLOp where
  | OpCreateNode
  | OpCreateEdge
  | OpAlterNode
  | OpAlterEdge
  | OpDropNode
  | OpDropEdge
deriving DecidableEq

/-- Go `DDLEvent` carries `Op` plus an untyped `Stmt any` payload.  In the
embedding the payload is a typed sum whose constructor fixes the op (every
event the repository builds satisfies this; the registry normalizes generic
payloads through a JSON round-trip which is the identity on typed
payloads).  `nilPayload` models `Stmt: nil` (the one decode failure mode),
`unsupportedOp` models an `Op` outside the known set. -/
inductive DDLEvent where
  | createNode (p : CreateNodePayload)
  | createEdge (p : CreateEdgePayload)
  | alterNode (p : AlterNodePayload)
  | alterEdge (p : AlterEdgePayload)
  | dropNode (p : DropNodePayload)
  | dropEdge (p : DropEdgePayload)
  | nilPayload (op : DDLOp)
  | unsupportedOp (op : String)

/-- Single-quote character, written via its code point. -/
def sqc : Char := Char.ofNat 39

/-- Single-quote as a one-character string (Go messages quote with `'`). -/
def sq : String := sqc.toString

/-- Double-quote as a string (Go `%q` quoting). -/
def dq : String := "\""

/-- Go `isScalarType`. -/
def isScalarType (t : TypeSpec) : Bool :=
  match t.Base with
  | BaseString | BaseText | BaseInt | BaseFloat | BaseBool
  | BaseUUID | BaseDate | BaseTime | BaseDateTime => true
  | _ => false

/-- Character-list case folding (`strings.ToUpper` / `strings.ToLower` /
`String.toUpper` do not reduce in the kernel, so the ASCII fold is spelled
out over the character list). -/
def strToUpper (s : String) : String :=
  String.mk (s.data.map Char.toUpper)

def strToLower (s : String) : String :=
  String.mk (s.data.map Char.toLower)

/-- Go `strings.EqualFold(x, "null")`, restricted to ASCII folding. -/
def eqFoldNull (x : String) : Bool :=
  strToLower x = "null"

/-- Per-field checks of `validateCreateNode`, in source order; returns the
primary-key count on success. -/
def checkCreateFields : List FieldPayload → Nat → List String → Except String Nat
  | [], pkCount, _ => .ok pkCount
  | f :: rest, pkCount, seen =>
    if f.Name = "" then .error "field with empty name"
    else if seen.contains f.Name then
      .error ("duplicate field " ++ dq ++ f.Name ++ dq)
    else
      let pkCount' := if f.PrimaryKey then pkCount + 1 else pkCount
      if f.PrimaryKey && !(isScalarType f.Typ) then
        .error ("primary key " ++ dq ++ f.Name ++ dq ++ " must be scalar")
      else if f.NotNull && (match f.DefaultRaw with
          | some d => eqFoldNull d
          | none => false) then
        .error ("field " ++ dq ++ f.Name ++ dq ++ " NOT NULL but default null")
      else if f.Typ.Base = BaseEnum && f.Typ.EnumVals = [] then
        .error ("enum field " ++ dq ++ f.Name ++ dq ++ " must have values")
      else checkCreateFields rest pkCount' (f.Name :: seen)

/-- Go `validateCreateNode`. -/
def validateCreateNode (c : Catalog) (p : CreateNodePayload) : Except String Unit :=
  if p.Name = "" then .error "node name required"
  else if c.Nodes.contains p.Name then
    .error ("node " ++ dq ++ p.Name ++ dq ++ " already exists")
  else if p.Fields.isEmpty then .error "node must define at least one field"
  else
    match checkCreateFields p.Fields 0 [] with
    | .error e => .error e
    | .ok pkCount =>
      if pkCount > 1 then .error "multiple PRIMARY KEY fields" else .ok ()

/-- Field-insertion loop of `ApplyCreateNode` (builds `nt`). -/
def buildNodeFields : NodeType → List FieldPayload → Except String NodeType
  | nt, [] => .ok nt
  | nt, f :: rest =>
    if nt.Fields.contains f.Name then
      .error ("duplicate field " ++ dq ++ f.Name ++ dq)
    else
      let fs : FieldSpec :=
        { Name := f.Name, Typ := f.Typ, Unique := f.Unique
          NotNull := f.NotNull, DefaultRaw := f.DefaultRaw }
      let nt := { nt with Fields := nt.Fields.put f.Name fs }
      let nt :=
        if f.PrimaryKey then
          { nt with PK := f.Name
                    Indexes := nt.Indexes.put f.Name { Field := f.Name, Unique := true } }
        else if f.Unique then
          { nt with Indexes := nt.Indexes.put f.Name { Field := f.Name, Unique := true } }
        else nt
      buildNodeFields nt rest

/-- Go `ApplyCreateNode`. -/
def ApplyCreateNode (c : Catalog) (p : CreateNodePayload) : Except String Catalog :=
  match validateCreateNode c p with
  | .error e => .error e
  | .ok _ =>
    let out := c.Clone
    let nt0 : NodeType := { Name := p.Name, Fields := [], PK := "", Indexes := [] }
    match buildNodeFields nt0 p.Fields with
    | .error e => .error e
    | .ok nt =>
      .ok { out with Nodes := out.Nodes.put p.Name nt, Version := out.Version + 1 }

/-- Per-prop checks of `validateCreateEdge`, in source order. -/
def checkEdgeProps : List FieldPayload → List String → Except String Unit
  | [], _ => .ok ()
  | f :: rest, seen =>
    if f.Name = "" then .error "edge prop with empty name"
    else if seen.contains f.Name then
      .error ("duplicate edge prop " ++ dq ++ f.Name ++ dq)
    else if f.Typ.Base = BaseEnum && f.Typ.EnumVals = [] then
      .error ("enum prop " ++ dq ++ f.Name ++ dq ++ " must have values")
    else checkEdgeProps rest (f.Name :: seen)

/-- Go `validateCreateEdge`. -/
def validateCreateEdge (c : Catalog) (p : CreateEdgePayload) : Except String Unit :=
  if p.Name = "" then .error "edge name required"
  else if c.Edges.contains p.Name then
    .error ("edge " ++ dq ++ p.Name ++ dq ++ " already exists")
  else if !(c.Nodes.contains p.From.Label) then
    .error ("FROM node type " ++ dq ++ p.From.Label ++ dq ++ " not found")
  else if !(c.Nodes.contains p.To.Label) then
    .error ("TO node type " ++ dq ++ p.To.Label ++ dq ++ " not found")
  else checkEdgeProps p.Props []

/-- Prop-insertion loop of `ApplyCreateEdge`. -/
def buildEdgeProps : EdgeType → List FieldPayload → Except String EdgeType
  | et, [] => .ok et
  | et, f :: rest =>
    if et.Props.contains f.Name then
      .error ("duplicate edge prop " ++ dq ++ f.Name ++ dq)
    else
      let fs : FieldSpec :=
        { Name := f.Name, Typ := f.Typ, Unique := f.Unique
          NotNull := f.NotNull, DefaultRaw := f.DefaultRaw }
      buildEdgeProps { et with Props := et.Props.put f.Name fs } rest

/-- Go `ApplyCreateEdge`. -/
def ApplyCreateEdge (c : Catalog) (p : CreateEdgePayload) : Except String Catalog :=
  match validateCreateEdge c p with
  | .error e => .error e
  | .ok _ =>
    let out := c.Clone
    let et0 : EdgeType := { Name := p.Name, From := p.From, To := p.To, Props := [] }
    match buildEdgeProps et0 p.Props with
    | .error e => .error e
    | .ok et =>
      .ok { out with Edges := out.Edges.put p.Name et, Version := out.Version + 1 }

/-- Per-action checks of `validateAlterNode`, in source order. -/
def checkNodeAlterActions : List NodeAlterAction → Except String Unit
  | [] => .ok ()
  | a :: rest =>
    if a.Typ = "ADD_FIELD" || a.Typ = "MODIFY_FIELD" then
      match a.Field with
      | none => .error ("field required for action " ++ a.Typ)
      | some f =>
        if f.Name = "" then .error "field name required"
        else if f.Typ.Base = BaseEnum && f.Typ.EnumVals = [] then
          .error ("enum field " ++ dq ++ f.Name ++ dq ++ " must have values")
        else if f.NotNull && (match f.DefaultRaw with
            | some d => eqFoldNull d
            | none => false) then
          .error ("field " ++ dq ++ f.Name ++ dq ++ " NOT NULL but default null")
        else if f.PrimaryKey && !(isScalarType f.Typ) then
          .error ("primary key " ++ dq ++ f.Name ++ dq ++ " must be scalar")
        else checkNodeAlterActions rest
    else if a.Typ = "DROP_FIELD" || a.Typ = "SET_PRIMARY_KEY" then
      if a.FieldName = "" then
        .error ("field name required for action " ++ a.Typ)
      else checkNodeAlterActions rest
    else .error ("unknown alter node action: " ++ a.Typ)

/-- Go `validateAlterNode`. -/
def validateAlterNode (c : Catalog) (p : AlterNodePayload) : Except String Unit :=
  if p.Name = "" then .error "node name required"
  else if !(c.Nodes.contains p.Name) then
    .error ("node " ++ dq ++ p.Name ++ dq ++ " does not exist")
  else if p.Actions.isEmpty then .error "at least one action required"
  else checkNodeAlterActions p.Actions

/-- Action-application loop of `ApplyAlterNode` (mutates the cloned node
type in the source; here threads it). -/
def alterNodeApplyActions : NodeType → List NodeAlterAction → Except String NodeType
  | nt, [] => .ok nt
  | nt, a :: rest =>
    if a.Typ = "ADD_FIELD" then
      match a.Field with
      | none => .error "field required for action ADD_FIELD"
      | some f =>
        if nt.Fields.contains f.Name then
          .error ("field " ++ dq ++ f.Name ++ dq ++ " already exists")
        else
          let fs : FieldSpec :=
            { Name := f.Name, Typ := f.Typ, Unique := f.Unique
              NotNull := f.NotNull, DefaultRaw := f.DefaultRaw }
          let nt := { nt with Fields := nt.Fields.put f.Name fs }
          if f.PrimaryKey then
            if nt.PK ≠ "" then .error "node already has a primary key"
            else
              alterNodeApplyActions
                { nt with PK := f.Name
                          Indexes := nt.Indexes.put f.Name { Field := f.Name, Unique := true } }
                rest
          else if f.Unique then
            alterNodeApplyActions
              { nt with Indexes := nt.Indexes.put f.Name { Field := f.Name, Unique := true } }
              rest
          else alterNodeApplyActions nt rest
    else if a.Typ = "DROP_FIELD" then
      if !(nt.Fields.contains a.FieldName) then
        .error ("field " ++ dq ++ a.FieldName ++ dq ++ " does not exist")
      else if nt.PK = a.FieldName then
        .error ("cannot drop primary key field " ++ dq ++ a.FieldName ++ dq)
      else
        alterNodeApplyActions
          { nt with Fields := nt.Fields.del a.FieldName
                    Indexes := nt.Indexes.del a.FieldName }
          rest
    else if a.Typ = "MODIFY_FIELD" then
      match a.Field with
      | none => .error "field required for action MODIFY_FIELD"
      | some f =>
        if !(nt.Fields.contains f.Name) then
          .error ("field " ++ dq ++ f.Name ++ dq ++ " does not exist")
        else if nt.PK = f.Name && f.PrimaryKey && !(isScalarType f.Typ) then
          .error ("primary key " ++ dq ++ f.Name ++ dq ++ " must be scalar")
        else if nt.PK = f.Name && !f.PrimaryKey then
          .error ("cannot remove primary key from field " ++ dq ++ f.Name ++ dq)
        else if nt.PK ≠ f.Name && f.PrimaryKey then
          .error ("cannot set primary key on field " ++ dq ++ f.Name ++ dq ++
            " when " ++ dq ++ nt.PK ++ dq ++ " is already primary key")
        else
          let fs : FieldSpec :=
            { Name := f.Name, Typ := f.Typ, Unique := f.Unique
              NotNull := f.NotNull, DefaultRaw := f.DefaultRaw }
          let nt := { nt with Fields := nt.Fields.put f.Name fs }
          if f.Unique || f.PrimaryKey then
            alterNodeApplyActions
              { nt with Indexes := nt.Indexes.put f.Name { Field := f.Name, Unique := true } }
              rest
          else
            alterNodeApplyActions { nt with Indexes := nt.Indexes.del f.Name } rest
    else if a.Typ = "SET_PRIMARY_KEY" then
      if !(nt.Fields.contains a.FieldName) then
        .error ("field " ++ dq ++ a.FieldName ++ dq ++ " does not exist")
      else
        match nt.Fields.get? a.FieldName with
        | none => .error ("field " ++ dq ++ a.FieldName ++ dq ++ " does not exist")
        | some field =>
          if !(isScalarType field.Typ) then
            .error ("primary key " ++ dq ++ a.FieldName ++ dq ++ " must be scalar")
          else
            let nt :=
              if nt.PK ≠ "" then
                match nt.Fields.get? nt.PK with
                | some oldField =>
                  if !oldField.Unique then { nt with Indexes := nt.Indexes.del nt.PK }
                  else nt
                | none => nt
              else nt
            alterNodeApplyActions
              { nt with PK := a.FieldName
                        Indexes := nt.Indexes.put a.FieldName
                          { Field := a.FieldName, Unique := true } }
              rest
    else .error ("unknown alter node action: " ++ a.Typ)

/-- Go `ApplyAlterNode`. -/
def ApplyAlterNode (c : Catalog) (p : AlterNodePayload) : Except String Catalog :=
  match validateAlterNode c p with
  | .error e => .error e
  | .ok _ =>
    let out := c.Clone
    match out.Nodes.get? p.Name with
    | none => .error ("node " ++ dq ++ p.Name ++ dq ++ " does not exist")
    | some nt =>
      match alterNodeApplyActions nt p.Actions with
      | .error e => .error e
      | .ok nt' =>
        .ok { out with Nodes := out.Nodes.put p.Name nt', Version := out.Version + 1 }

/-- Per-action checks of `validateAlterEdge`, in source order. -/
def checkEdgeAlterActions (c : Catalog) : List EdgeAlterAction → Except String Unit
  | [] => .ok ()
  | a :: rest =>
    if a.Typ = "ADD_PROP" || a.Typ = "MODIFY_PROP" then
      match a.PropF with
      | none => .error ("prop required for action " ++ a.Typ)
      | some f =>
        if f.Name = "" then .error "prop name required"
        else if f.Typ.Base = BaseEnum && f.Typ.EnumVals = [] then
          .error ("enum prop " ++ dq ++ f.Name ++ dq ++ " must have values")
        else if f.NotNull && (match f.DefaultRaw with
            | some d => eqFoldNull d
            | none => false) then
          .error ("prop " ++ dq ++ f.Name ++ dq ++ " NOT NULL but default null")
        else checkEdgeAlterActions c rest
    else if a.Typ = "DROP_PROP" then
      if a.PropName = "" then
        .error ("prop name required for action " ++ a.Typ)
      else checkEdgeAlterActions c rest
    else if a.Typ = "CHANGE_ENDPOINT" then
      if a.Endpoint ≠ "FROM" && a.Endpoint ≠ "TO" then
        .error ("endpoint must be FROM or TO, got " ++ dq ++ a.Endpoint ++ dq)
      else
        match a.NewEndpoint with
        | none => .error "new endpoint required for CHANGE_ENDPOINT"
        | some ep =>
          if ep.Label = "" then .error "endpoint label required"
          else if !(c.Nodes.contains ep.Label) then
            .error ("endpoint node type " ++ dq ++ ep.Label ++ dq ++ " not found")
          else checkEdgeAlterActions c rest
    else .error ("unknown alter edge action: " ++ a.Typ)

/-- Go `validateAlterEdge`. -/
def validateAlterEdge (c : Catalog) (p : AlterEdgePayload) : Except String Unit :=
  if p.Name = "" then .error "edge name required"
  else if !(c.Edges.contains p.Name) then
    .error ("edge " ++ dq ++ p.Name ++ dq ++ " does not exist")
  else if p.Actions.isEmpty then .error "at least one action required"
  else checkEdgeAlterActions c p.Actions

/-- Action-application loop of `ApplyAlterEdge` (endpoint existence is
checked against the original catalog `c`, as in the source). -/
def alterEdgeApplyActions (c : Catalog) : EdgeType → List EdgeAlterAction → Except String EdgeType
  | et, [] => .ok et
  | et, a :: rest =>
    if a.Typ = "ADD_PROP" then
      match a.PropF with
      | none => .error "prop required for action ADD_PROP"
      | some f =>
        if et.Props.contains f.Name then
          .error ("prop " ++ dq ++ f.Name ++ dq ++ " already exists")
        else
          let fs : FieldSpec :=
            { Name := f.Name, Typ := f.Typ, Unique := f.Unique
              NotNull := f.NotNull, DefaultRaw := f.DefaultRaw }
          alterEdgeApplyActions c { et with Props := et.Props.put f.Name fs } rest
    else if a.Typ = "DROP_PROP" then
      if !(et.Props.contains a.PropName) then
        .error ("prop " ++ dq ++ a.PropName ++ dq ++ " does not exist")
      else alterEdgeApplyActions c { et with Props := et.Props.del a.PropName } rest
    else if a.Typ = "MODIFY_PROP" then
      match a.PropF with
      | none => .error "prop required for action MODIFY_PROP"
      | some f =>
        if !(et.Props.contains f.Name) then
          .error ("prop " ++ dq ++ f.Name ++ dq ++ " does not exist")
        else
          let fs : FieldSpec :=
            { Name := f.Name, Typ := f.Typ, Unique := f.Unique
              NotNull := f.NotNull, DefaultRaw := f.DefaultRaw }
          alterEdgeApplyActions c { et with Props := et.Props.put f.Name fs } rest
    else if a.Typ = "CHANGE_ENDPOINT" then
      match a.NewEndpoint with
      | none => .error "new endpoint required for CHANGE_ENDPOINT"
      | some ep =>
        if a.Endpoint = "FROM" then
          if !(c.Nodes.contains ep.Label) then
            .error ("FROM node type " ++ dq ++ ep.Label ++ dq ++ " not found")
          else alterEdgeApplyActions c { et with From := ep } rest
        else if a.Endpoint = "TO" then
          if !(c.Nodes.contains ep.Label) then
            .error ("TO node type " ++ dq ++ ep.Label ++ dq ++ " not found")
          else alterEdgeApplyActions c { et with To := ep } rest
        else .error ("invalid endpoint " ++ dq ++ a.Endpoint ++ dq)
    else .error ("unknown alter edge action: " ++ a.Typ)

/-- Go `ApplyAlterEdge`. -/
def ApplyAlterEdge (c : Catalog) (p : AlterEdgePayload) : Except String Catalog :=
  match validateAlterEdge c p with
  | .error e => .error e
  | .ok _ =>
    let out := c.Clone
    match out.Edges.get? p.Name with
    | none => .error ("edge " ++ dq ++ p.Name ++ dq ++ " does not exist")
    | some et =>
      match alterEdgeApplyActions c et p.Actions with
      | .error e => .error e
      | .ok et' =>
        .ok { out with Edges := out.Edges.put p.Name et', Version := out.Version + 1 }

/-- Edge-reference scan of `validateDropNode`. -/
def findReferencingEdge (name : String) : StrMap EdgeType → Option String
  | [] => none
  | (edgeName, edge) :: rest =>
    if edge.From.Label = name || edge.To.Label = name then some edgeName
    else findReferencingEdge name rest

/-- Go `validateDropNode`. -/
def validateDropNode (c : Catalog) (p : DropNodePayload) : Except String Unit :=
  if p.Name = "" then .error "node name required"
  else if !(c.Nodes.contains p.Name) then
    .error ("node " ++ dq ++ p.Name ++ dq ++ " does not exist")
  else
    match findReferencingEdge p.Name c.Edges with
    | some edgeName =>
      .error ("cannot drop node " ++ dq ++ p.Name ++ dq ++ ": referenced by edge " ++
        dq ++ edgeName ++ dq)
    | none => .ok ()

/-- Go `ApplyDropNode`. -/
def ApplyDropNode (c : Catalog) (p : DropNodePayload) : Except String Catalog :=
  match validateDropNode c p with
  | .error e => .error e
  | .ok _ =>
    let out := c.Clone
    .ok { out with Nodes := out.Nodes.del p.Name, Version := out.Version + 1 }

/-- Go `validateDropEdge`. -/
def validateDropEdge (c : Catalog) (p : DropEdgePayload) : Except String Unit :=
  if p.Name = "" then .error "edge name required"
  else if !(c.Edges.contains p.Name) then
    .error ("edge " ++ dq ++ p.Name ++ dq ++ " does not exist")
  else .ok ()

/-- Go `ApplyDropEdge`. -/
def ApplyDropEdge (c : Catalog) (p : DropEdgePayload) : Except String Catalog :=
  match validateDropEdge c p with
  | .error e => .error e
  | .ok _ =>
    let out := c.Clone
    .ok { out with Edges := out.Edges.del p.Name, Version := out.Version + 1 }

/-! Registry (store_test.go, second document): lock-free reader state plus
the write path `Registry.Apply`.  The `Store` interface becomes a structure
of pure state transformers over an abstract store state `σ`; the atomic
pointer plus writer lock collapse to plain state threading (writers are
serialized in the source, readers only load the published pointer). -/

structure StoreOps (σ : Type) where
  AppendDDL : σ → DDLEvent → Except String (Nat × σ)
  UpdateManifest : σ → Nat → Nat → Except String σ

structure Registry where
  cur : Catalog
  ddlOffset : Nat

/-- Dispatch step of `Registry.Apply`: decode the payload and run the
matching `Apply*` against the currently published catalog.  For a typed
payload the JSON decode round-trip is the identity; a `nil` payload is the
decode failure; an unknown op is rejected. -/
def applyDDL (c : Catalog) : DDLEvent → Except String Catalog
  | .createNode p => ApplyCreateNode c p
  | .createEdge p => ApplyCreateEdge c p
  | .alterNode p => ApplyAlterNode c p
  | .alterEdge p => ApplyAlterEdge c p
  | .dropNode p => ApplyDropNode c p
  | .dropEdge p => ApplyDropEdge c p
  | .nilPayload _ => .error "nil DDL payload"
  | .unsupportedOp op => .error ("unsupported DDL op " ++ op)

/-- Go `(*Registry).Apply`: compute the new catalog, persist the event via
`AppendDDL`, publish (`cur` swap), then update the manifest.  The result
carries the returned value plus the registry and store states after the
call. -/
def Registry.Apply {σ : Type} (ops : StoreOps σ) (r : Registry) (s : σ)
    (ev : DDLEvent) : Except String Catalog × Registry × σ :=
  match applyDDL r.cur ev with
  | .error e => (.error e, r, s)
  | .ok newCat =>
    match ops.AppendDDL s ev with
    | .error e => (.error e, r, s)
    | .ok (off, s') =>
      let r' : Registry := { cur := newCat, ddlOffset := off }
      match ops.UpdateManifest s' newCat.Version off with
      | .error e => (.error e, r', s')
      | .ok s'' => (.ok newCat, r', s'')

/-! On-disk DDL log replay (fileStore.Load, types_test.go, fourth
document).  A line of `catalog-ddl.jsonl` either fails `json.Unmarshal`
(`malformed`) or decodes to a `DDLEvent`. -/

inductive LogLine where
  | malformed
  | event (ev : DDLEvent)

/-- Zero value the ignored-error `decode` leaves behind when `Stmt` is
`nil` in the DDL log: the payload struct with all fields zeroed. -/
def zeroApply (c : Catalog) : DDLOp → Except String Catalog
  | .OpCreateNode => ApplyCreateNode c { Name := "", Fields := [] }
  | .OpCreateEdge => ApplyCreateEdge c
      { Name := "", From := { Label := "", Card := One }
        To := { Label := "", Card := One }, Props := [] }
  | .OpAlterNode => ApplyAlterNode c { Name := "", Actions := [] }
  | .OpAlterEdge => ApplyAlterEdge c { Name := "", Actions := [] }
  | .OpDropNode => ApplyDropNode c { Name := "" }
  | .OpDropEdge => ApplyDropEdge c { Name := "" }

/-- Per-event dispatch of the Load replay loop (decode errors are ignored
in the source, so a `nil` payload turns into the zero payload). -/
def loadApplyEvent (c : Catalog) : DDLEvent → Except String Catalog
  | .createNode p => ApplyCreateNode c p
  | .createEdge p => ApplyCreateEdge c p
  | .alterNode p => ApplyAlterNode c p
  | .alterEdge p => ApplyAlterEdge c p
  | .dropNode p => ApplyDropNode c p
  | .dropEdge p => ApplyDropEdge c p
  | .nilPayload op => zeroApply c op
  | .unsupportedOp op => .error ("unknown op " ++ op)

/-- Replay loop of `fileStore.Load`: skip the first `off` lines per the
manifest, apply the rest in order.  `pos` counts every line read.  The Go
variable `cat` is a nil-able pointer assigned by `cat, err = ApplyX(cat, p)`,
so an `Apply*` error leaves it `nil` (`none`) — the unknown-op branch
assigns only `err` and keeps the previous catalog. -/
def loadReplay (off : Nat) : Catalog → Nat → List LogLine → Option Catalog × Nat
  | c, pos, [] => (some c, pos)
  | c, pos, l :: ls =>
    let pos' := pos + 1
    if pos' ≤ off then loadReplay off c pos' ls
    else
      match l with
      | .malformed => (some c, pos')
      | .event (.unsupportedOp _) => (some c, pos')
      | .event ev =>
        match loadApplyEvent c ev with
        | .ok c2 => loadReplay off c2 pos' ls
        | .error _ => (none, pos')

/-- Go `fileStore.Load`, over the decoded on-disk state: the snapshot the
manifest names (`none` models a fresh install / empty `Snapshot` field),
that manifest's `ddl_offset`, and the decoded DDL-log lines.  Returns the
replayed catalog (a `nil` pointer as `none`) and the line offset; the
source returns a nil `error` on every path modelled here. -/
def fileStoreLoad (snap : Option Catalog) (ddlOffset : Nat)
    (lines : List LogLine) : Option Catalog × Nat :=
  let cat0 := match snap with
    | some c => c
    | none => NewEmpty
  loadReplay ddlOffset cat0 0 lines

end catalog

/-! Package `parser`: token model (token.go), lexer (lexer.go) and the
recursive-descent parser (ast.go — the revision the DML-capable executor
uses; parser.go in the same snapshot is an earlier DDL-only revision of
the same functions). -/

namespace parser

inductive TokenType where
  | EOF
  | ILLEGAL
  | IDENT
  | NUMBER
  | STRING
  | BOOL
  | NULL
  | CREATE
  | NODE
  | EDGE
  | FROM
  | TO
  | PROPS
  | PRIMARY
  | KEY
  | UNIQUE
  | NOT
  | NULLKW
  | DEFAULT
  | CHECK
  | ALTER
  | DROP
  | ADD
  | MODIFY
  | SET
  | INDEX
  | ON
  | ONE
  | MANY
  | ARRAY
  | ENUM
  | SHOW
  | DESCRIBE
  | TYPEKW
  | DATE
  | TIME
  | DATETIME
  | JSON
  | BLOB
  | INT
  | FLOAT
  | STRINGKW
  | TEXT
  | BOOLKW
  | UUID
  | INSERT
  | UPDATE
  | DELETE
  | MATCH
  | WHERE
  | RETURN
  | LPAREN
  | RPAREN
  | LT
  | GT
  | COMMA
  | SEMI
  | COLON
  | QUOTE
deriving DecidableEq

/-- Go `TokenType.String()` (token.go), used in parse-error messages. -/
def TokenType.String : TokenType → String
  | .EOF => "EOF"
  | .ILLEGAL => "ILLEGAL"
  | .IDENT => "identifier"
  | .NUMBER => "number"
  | .STRING => "string"
  | .BOOL => "boolean"
  | .NULL => "null"
  | .CREATE => "CREATE"
  | .NODE => "NODE"
  | .EDGE => "EDGE"
  | .FROM => "FROM"
  | .TO => "TO"
  | .PROPS => "PROPS"
  | .PRIMARY => "PRIMARY"
  | .KEY => "KEY"
  | .UNIQUE => "UNIQUE"
  | .NOT => "NOT"
  | .NULLKW => "NULL"
  | .DEFAULT => "DEFAULT"
  | .CHECK => "CHECK"
  | .ALTER => "ALTER"
  | .DROP => "DROP"
  | .ADD => "ADD"
  | .MODIFY => "MODIFY"
  | .SET => "SET"
  | .INDEX => "INDEX"
  | .ON => "ON"
  | .ONE => "ONE"
  | .MANY => "MANY"
  | .ARRAY => "ARRAY"
  | .ENUM => "ENUM"
  | .SHOW => "SHOW"
  | .DESCRIBE => "DESCRIBE"
  | .TYPEKW => "TYPE"
  | .DATE => "DATE"
  | .TIME => "TIME"
  | .DATETIME => "DATETIME"
  | .JSON => "JSON"
  | .BLOB => "BLOB"
  | .INT => "INT"
  | .FLOAT => "FLOAT"
  | .STRINGKW => "STRING"
  | .TEXT => "TEXT"
  | .BOOLKW => "BOOL"
  | .UUID => "UUID"
  | .INSERT => "INSERT"
  | .UPDATE => "UPDATE"
  | .DELETE => "DELETE"
  | .MATCH => "MATCH"
  | .WHERE => "WHERE"
  | .RETURN => "RETURN"
  | .LPAREN => "("
  | .RPAREN => ")"
  | .LT => "<"
  | .GT => ">"
  | .COMMA => ","
  | .SEMI => ";"
  | .COLON => ":"
  | .QUOTE => "QUOTE"

/-- Go `Token` (field `Type` spelled `Typ`, `Column` kept). -/
structure Token where
  Typ : TokenType
  Lit : String
  Line : Nat
  Column : Nat
deriving DecidableEq

/-- Modelled from the spec: the keyword table consulted by `LookupIdent`.
The copy of the table under src/ predates the DML statements: it lists the
DDL keywords plus `TRUE`/`FALSE` only, while token.go declares the token
types `INSERT`, `UPDATE`, `DELETE`, `MATCH`, `WHERE`, `RETURN` and the
ast.go parser dispatches on them (the executor tests parse such scripts
with no errors).  The spec's §4.1 keyword set — the DDL keywords plus
`INSERT, UPDATE, DELETE, MATCH, WHERE, RETURN, TRUE, FALSE` — is used
here. -/
def keywords : List (String × TokenType) :=
  [("CREATE", .CREATE), ("NODE", .NODE), ("EDGE", .EDGE), ("FROM", .FROM),
   ("TO", .TO), ("PROPS", .PROPS), ("PRIMARY", .PRIMARY), ("KEY", .KEY),
   ("UNIQUE", .UNIQUE), ("NOT", .NOT), ("NULL", .NULLKW),
   ("DEFAULT", .DEFAULT), ("CHECK", .CHECK), ("ALTER", .ALTER),
   ("DROP", .DROP), ("ADD", .ADD), ("MODIFY", .MODIFY), ("SET", .SET),
   ("INDEX", .INDEX), ("ON", .ON), ("ONE", .ONE), ("MANY", .MANY),
   ("ARRAY", .ARRAY), ("ENUM", .ENUM), ("SHOW", .SHOW),
   ("DESCRIBE", .DESCRIBE), ("TYPE", .TYPEKW), ("DATE", .DATE),
   ("TIME", .TIME), ("DATETIME", .DATETIME), ("JSON", .JSON),
   ("BLOB", .BLOB), ("INT", .INT), ("FLOAT", .FLOAT),
   ("STRING", .STRINGKW), ("TEXT", .TEXT), ("BOOL", .BOOLKW),
   ("UUID", .UUID), ("INSERT", .INSERT), ("UPDATE", .UPDATE),
   ("DELETE", .DELETE), ("MATCH", .MATCH), ("WHERE", .WHERE),
   ("RETURN", .RETURN), ("TRUE", .BOOL), ("FALSE", .BOOL)]

def kwLookup : List (String × TokenType) → String → Option TokenType
  | [], _ => none
  | (k, v) :: rest, s => if k = s then some v else kwLookup rest s

/-- Go `LookupIdent` (ASCII uppercase folding models `strings.ToUpper`). -/
def LookupIdent (ident : String) : TokenType :=
  match kwLookup keywords (catalog.strToUpper ident) with
  | some tok => tok
  | none => .IDENT

/-- Backtick character, spelled via its code point. -/
def bqc : Char := Char.ofNat 96

/-- Lexer state: the remaining input plus the current line/column (the
consumed prefix of the Go cursor is implicit). -/
structure Lexer where
  input : List Char
  line : Nat
  col : Nat

/-- Go `NewLexer`. -/
def NewLexer (s : String) : Lexer :=
  { input := s.data, line := 1, col := 1 }

/-- Go `(*Lexer).advance` (rune widths collapse to one list element). -/
def Lexer.advance (l : Lexer) : Lexer :=
  match l.input with
  | [] => l
  | c :: rest =>
    if c = '\n' then { input := rest, line := l.line + 1, col := 1 }
    else { input := rest, line := l.line, col := l.col + 1 }

def Lexer.advanceMany (l : Lexer) : Nat → Lexer
  | 0 => l
  | n + 1 => l.advance.advanceMany n

/-- Go `(*Lexer).peek` (NUL at end of input). -/
def Lexer.peek (l : Lexer) : Char :=
  match l.input with
  | [] => Char.ofNat 0
  | c :: _ => c

/-- Go `(*Lexer).peekN 1`: the rune after the next one. -/
def Lexer.peek2 (l : Lexer) : Char :=
  match l.input with
  | _ :: c :: _ => c
  | _ => Char.ofNat 0

def isSpaceGo (c : Char) : Bool :=
  c = ' ' || c = '\t' || c = '\n' || c = '\r'

/-- Go `(*Lexer).skipWhitespace`. -/
def Lexer.skipWhitespace (l : Lexer) : Lexer :=
  l.advanceMany (l.input.takeWhile isSpaceGo).length

/-- Go `isIdentStart` (`unicode.IsLetter` restricted to ASCII). -/
def isIdentStart (r : Char) : Bool :=
  r.isAlpha || r = '_'

/-- Go `isIdentPart`. -/
def isIdentPart (r : Char) : Bool :=
  r.isAlpha || r.isDigit || r = '_'

/-- Scanner of `skipBlockComment` after the opening two characters: the
count of characters up to and including the closing star-slash pair, or
`none` when the comment is unterminated. -/
def findBlockEnd : List Char → Option Nat
  | [] => none
  | c :: rest =>
    match rest with
    | c2 :: rest2 =>
      if c = '*' && c2 = '/' then some 2
      else (findBlockEnd (c2 :: rest2)).map (· + 1)
    | [] => none

/-- Scanner of `lexString` after the opening quote: the unescaped value
and the count of raw characters consumed including the closing quote, or
`none` when unterminated. -/
def scanStr : List Char → Option (List Char × Nat)
  | [] => none
  | c :: rest =>
    if c = catalog.sqc then
      match rest with
      | c2 :: rest2 =>
        if c2 = catalog.sqc then
          (scanStr rest2).map (fun p => (catalog.sqc :: p.1, p.2 + 2))
        else some ([], 1)
      | [] => some ([], 1)
    else (scanStr rest).map (fun p => (c :: p.1, p.2 + 1))

/-- Scanner of `lexQuotedIdent` after the opening backtick: the verbatim
inner text and the count consumed including the closing backtick. -/
def scanQuoted : List Char → Option (List Char × Nat)
  | [] => none
  | c :: rest =>
    if c = bqc then some ([], 1)
    else (scanQuoted rest).map (fun p => (c :: p.1, p.2 + 1))

/-- Go `makeToken`: the column is where the token started (`col` minus the
characters consumed for it); `line` is the line after consuming. -/
def mkTok (l : Lexer) (consumed : Nat) (t : TokenType) (lit : String) : Token :=
  { Typ := t, Lit := lit, Line := l.line, Column := l.col - consumed }

/-- Go `errorToken`: current position, no column adjustment. -/
def errTok (l : Lexer) (msg : String) : Token :=
  { Typ := .ILLEGAL, Lit := msg, Line := l.line, Column := l.col }

/-- Go `lexIdentOrKeyword`. -/
def lexIdentOrKeyword (l : Lexer) : Token × Lexer :=
  let cs := l.input.takeWhile isIdentPart
  let lit := String.mk cs
  let l' := l.advanceMany cs.length
  match LookupIdent lit with
  | .BOOL => (mkTok l' cs.length .BOOL (catalog.strToLower lit), l')
  | .NULLKW => (mkTok l' cs.length .NULL (catalog.strToLower lit), l')
  | tokType => (mkTok l' cs.length tokType lit, l')

/-- Go `lexNumber`: digits, then an optional dot followed by zero or more
digits (the dot is consumed unconditionally once seen). -/
def lexNumber (l : Lexer) : Token × Lexer :=
  let ds := l.input.takeWhile Char.isDigit
  match l.input.drop ds.length with
  | c :: rest =>
    if c = '.' then
      let ds2 := rest.takeWhile Char.isDigit
      let n := ds.length + 1 + ds2.length
      let l' := l.advanceMany n
      (mkTok l' n .NUMBER (String.mk (ds ++ c :: ds2)), l')
    else
      let l' := l.advanceMany ds.length
      (mkTok l' ds.length .NUMBER (String.mk ds), l')
  | [] =>
    let l' := l.advanceMany ds.length
    (mkTok l' ds.length .NUMBER (String.mk ds), l')

/-- Go `lexString` (unterminated: the cursor has reached end of input when
the error token is made). -/
def lexString (l : Lexer) : Token × Lexer :=
  match scanStr (l.input.drop 1) with
  | some (val, n) =>
    let l' := l.advanceMany (1 + n)
    (mkTok l' (1 + n) .STRING (String.mk val), l')
  | none =>
    let l' := l.advanceMany l.input.length
    (errTok l' "unterminated string literal", l')

/-- Go `lexQuotedIdent`. -/
def lexQuotedIdent (l : Lexer) : Token × Lexer :=
  match scanQuoted (l.input.drop 1) with
  | some (inner, n) =>
    let l' := l.advanceMany (1 + n)
    (mkTok l' (1 + n) .IDENT (String.mk inner), l')
  | none =>
    let l' := l.advanceMany l.input.length
    (errTok l' "unterminated quoted identifier", l')

/-- Symbol arm of the `NextToken` switch: the seven punctuation
characters and their token kinds. -/
def symbolType (c : Char) : Option (TokenType × String) :=
  if c = '(' then some (.LPAREN, "(")
  else if c = ')' then some (.RPAREN, ")")
  else if c = '<' then some (.LT, "<")
  else if c = '>' then some (.GT, ">")
  else if c = ',' then some (.COMMA, ",")
  else if c = ';' then some (.SEMI, ";")
  else if c = ':' then some (.COLON, ":")
  else none

/-- Go `(*Lexer).NextToken`.  The recursion after skipping a comment is
fuelled; a comment consumes at least two characters, so fuel of the input
length plus one can never run out (the zero-fuel token is unreachable from
`tokenize`). -/
def NextToken : Nat → Lexer → Token × Lexer
  | 0, l => (errTok l "lexer fuel exhausted", l)
  | fuel + 1, l0 =>
    let l := l0.skipWhitespace
    match l.input with
    | [] => (mkTok l 0 .EOF "", l)
    | c :: _ =>
      if c = '-' && l.peek2 = '-' then
        NextToken fuel (l.advanceMany (l.input.takeWhile (· ≠ '\n')).length)
      else if c = '/' && l.peek2 = '*' then
        match findBlockEnd (l.input.drop 2) with
        | some n => NextToken fuel (l.advanceMany (2 + n))
        | none =>
          let l' := l.advanceMany l.input.length
          (errTok l' "unterminated block comment", l')
      else
        match symbolType c with
        | some tl => (mkTok l.advance 1 tl.1 tl.2, l.advance)
        | none =>
          if c = bqc then lexQuotedIdent l
          else if c = catalog.sqc then lexString l
          else if isIdentStart c then lexIdentOrKeyword l
          else if c.isDigit then lexNumber l
          else
            (errTok l.advance ("unexpected character: " ++ catalog.sq ++
              c.toString ++ catalog.sq), l.advance)

/-- Token stream of an input, final EOF token included.  The collection
fuel bounds the token count: every non-EOF token consumes at least one
character, so input length plus two suffices. -/
def tokenizeLoop : Nat → Lexer → List Token
  | 0, l => [mkTok l 0 .EOF ""]
  | fuel + 1, l =>
    let (t, l') := NextToken (l.input.length + 1) l
    if t.Typ = .EOF then [t] else t :: tokenizeLoop fuel l'

def tokenize (input : String) : List Token :=
  tokenizeLoop (input.data.length + 2) (NewLexer input)

/-! The AST (ast.go, first document). -/

inductive BaseType where
  | BaseString
  | BaseText
  | BaseInt
  | BaseFloat
  | BaseBool
  | BaseUUID
  | BaseDate
  | BaseTime
  | BaseDateTime
  | BaseJSON
  | BaseBlob
deriving DecidableEq

/-- Go `parser.TypeSpec` (recursive through `Elem *TypeSpec`). -/
inductive TypeSpec where
  | mk (Base : BaseType) (Elem : Option TypeSpec) (EnumVals : List String)

def TypeSpec.Base : TypeSpec → BaseType
  | .mk b _ _ => b

def TypeSpec.Elem : TypeSpec → Option TypeSpec
  | .mk _ e _ => e

def TypeSpec.EnumVals : TypeSpec → List String
  | .mk _ _ vs => vs

inductive LiteralKind where
  | LitString
  | LitNumber
  | LitBool
  | LitNull
deriving DecidableEq

structure Literal where
  Kind : LiteralKind
  Text : String
  Line : Nat
  Col : Nat
deriving DecidableEq

structure FieldDef where
  Name : String
  Typ : TypeSpec
  PrimaryKey : Bool
  Unique : Bool
  NotNull : Bool
  Default : Option Literal
  Line : Nat
  Col : Nat

structure CreateNodeStmt where
  Name : String
  Fields : List FieldDef
  Line : Nat
  Col : Nat

inductive Cardinality where
  | CardOne
  | CardMany
deriving DecidableEq

structure Endpoint where
  Label : String
  Card : Cardinality
deriving DecidableEq

structure CreateEdgeStmt where
  Name : String
  From : Endpoint
  To : Endpoint
  Props : List FieldDef
  Line : Nat
  Col : Nat

inductive AlterAction where
  | AlterAddField
  | AlterDropField
  | AlterModifyField
  | AlterSetPrimaryKey
  | AlterAddProp
  | AlterDropProp
  | AlterModifyProp
  | AlterSetEndpoints
deriving DecidableEq

structure AlterNodeStmt where
  Name : String
  Action : AlterAction
  Field : Option FieldDef
  FieldName : String
  PkFields : List String
  Line : Nat
  Col : Nat

/-- Go field `Prop` is spelled `PropF` (`Prop` is a Lean keyword). -/
structure AlterEdgeStmt where
  Name : String
  Action : AlterAction
  PropF : Option FieldDef
  PropName : String
  From : Option Endpoint
  To : Option Endpoint
  Line : Nat
  Col : Nat

structure DropNodeStmt where
  Name : String
  Line : Nat
  Col : Nat
deriving DecidableEq

structure DropEdgeStmt where
  Name : String
  Line : Nat
  Col : Nat
deriving DecidableEq

/-- Go `Property` (`Value *Literal` is populated on every construction in
the parser, and the executor dereferences it unconditionally, so it is a
plain `Literal` here). -/
structure Property where
  Name : String
  Value : Literal
  Line : Nat
  Col : Nat
deriving DecidableEq

structure InsertNodeStmt where
  NodeType : String
  Properties : List Property
  Line : Nat
  Col : Nat
deriving DecidableEq

structure NodeRef where
  NodeType : String
  ID : Option Literal
  Properties : List Property
  Line : Nat
  Col : Nat
deriving DecidableEq

structure InsertEdgeStmt where
  EdgeType : String
  FromNode : NodeRef
  ToNode : NodeRef
  Properties : List Property
  Line : Nat
  Col : Nat
deriving DecidableEq

structure UpdateNodeStmt where
  NodeType : String
  Where : List Property
  Set : List Property
  Line : Nat
  Col : Nat
deriving DecidableEq

structure UpdateEdgeStmt where
  EdgeType : String
  Where : List Property
  Set : List Property
  Line : Nat
  Col : Nat
deriving DecidableEq

structure DeleteNodeStmt where
  NodeType : String
  Where : List Property
  Line : Nat
  Col : Nat
deriving DecidableEq

structure DeleteEdgeStmt where
  EdgeType : String
  Where : List Property
  Line : Nat
  Col : Nat
deriving DecidableEq

/-- Go field `Type` is spelled `Typ`. -/
structure MatchElement where
  Typ : String
  Alias : String
  Properties : List Property
  IsEdge : Bool
  Line : Nat
  Col : Nat
deriving DecidableEq

structure MatchStmt where
  Pattern : List MatchElement
  Where : List Property
  Return : List String
  Line : Nat
  Col : Nat
deriving DecidableEq

/-- Go `Stmt` interface: a closed sum of the thirteen statement structs. -/
inductive Stmt where
  | createNode (s : CreateNodeStmt)
  | createEdge (s : CreateEdgeStmt)
  | alterNode (s : AlterNodeStmt)
  | alterEdge (s : AlterEdgeStmt)
  | dropNode (s : DropNodeStmt)
  | dropEdge (s : DropEdgeStmt)
  | insertNode (s : InsertNodeStmt)
  | insertEdge (s : InsertEdgeStmt)
  | updateNode (s : UpdateNodeStmt)
  | updateEdge (s : UpdateEdgeStmt)
  | deleteNode (s : DeleteNodeStmt)
  | deleteEdge (s : DeleteEdgeStmt)
  | matchStmt (s : MatchStmt)

structure ParseError where
  Line : Nat
  Col : Nat
  Msg : String
deriving DecidableEq

/-! The parser (ast.go, second document).  State: the remaining token
stream (its last element is the EOF token, which `advanceP` keeps, since
the Go lexer returns EOF forever) plus the collected errors.  Loops and
statement-level recursion are fuelled; the fuel passed from `ParseScript`
exceeds the token count, which every loop iteration consumes from. -/

structure PState where
  toks : List Token
  errors : List ParseError

def curTok (s : PState) : Token :=
  match s.toks with
  | [] => { Typ := .EOF, Lit := "", Line := 1, Column := 1 }
  | t :: _ => t

def bumpList : List Token → List Token
  | [] => []
  | [t] => [t]
  | _ :: t :: ts => t :: ts

/-- Go `p.next()`. -/
def advanceP (s : PState) : PState :=
  { s with toks := bumpList s.toks }

def skipToSemiAux : List Token → List Token
  | [] => []
  | t :: ts =>
    if t.Typ = .SEMI || t.Typ = .EOF then t :: ts else skipToSemiAux ts

/-- Go `(*Parser).errf`: record the error, then recover by consuming up to
and including the next semicolon (or stopping at EOF). -/
def errf (s : PState) (line col : Nat) (msg : String) : PState :=
  let s1 : PState := { s with errors := s.errors ++ [{ Line := line, Col := col, Msg := msg }] }
  let toks1 := skipToSemiAux s1.toks
  match toks1 with
  | t :: _ =>
    if t.Typ = .SEMI then { s1 with toks := bumpList toks1 }
    else { s1 with toks := toks1 }
  | [] => { s1 with toks := [] }

/-- Go `(*Parser).expect`: on a mismatch it records the error, recovers,
and then still advances one more token; the pre-call token is returned
either way. -/
def expectT (tt : TokenType) (s : PState) : Token × PState :=
  let t := curTok s
  if t.Typ = tt then (t, advanceP s)
  else
    let s1 := errf s t.Line t.Column
      ("expected " ++ tt.String ++ ", found " ++ t.Typ.String ++
        " (" ++ catalog.dq ++ t.Lit ++ catalog.dq ++ ")")
    (t, advanceP s1)

/-- Go `(*Parser).match`. -/
def matchT (tt : TokenType) (s : PState) : Bool × PState :=
  if (curTok s).Typ = tt then (true, advanceP s) else (false, s)

/-- Go `parseLiteral` (the failure branch also advances). -/
def parseLiteral (s : PState) : Literal × PState :=
  let t := curTok s
  match t.Typ with
  | .STRING => ({ Kind := .LitString, Text := t.Lit, Line := t.Line, Col := t.Column }, advanceP s)
  | .NUMBER => ({ Kind := .LitNumber, Text := t.Lit, Line := t.Line, Col := t.Column }, advanceP s)
  | .BOOL => ({ Kind := .LitBool, Text := t.Lit, Line := t.Line, Col := t.Column }, advanceP s)
  | .NULL => ({ Kind := .LitNull, Text := "null", Line := t.Line, Col := t.Column }, advanceP s)
  | _ =>
    let s1 := errf s t.Line t.Column ("expected literal, found " ++ t.Typ.String)
    ({ Kind := .LitNull, Text := "null", Line := t.Line, Col := t.Column }, advanceP s1)

/-- Comma-separated tail of the enum value list. -/
def enumValsLoop : Nat → List String → PState → List String × PState
  | 0, vals, s => (vals, s)
  | fuel + 1, vals, s =>
    let (b, s) := matchT .COMMA s
    if b then
      let (v, s) := expectT .STRING s
      enumValsLoop fuel (vals ++ [v.Lit]) s
    else (vals, s)

/-- Go `parseTypeSpec` (enum values loop and array recursion fuelled). -/
def parseTypeSpec : Nat → PState → TypeSpec × PState
  | 0, s => (TypeSpec.mk .BaseString none [], s)
  | fuel + 1, s =>
    match (curTok s).Typ with
    | .STRINGKW => (TypeSpec.mk .BaseString none [], advanceP s)
    | .TEXT => (TypeSpec.mk .BaseText none [], advanceP s)
    | .INT => (TypeSpec.mk .BaseInt none [], advanceP s)
    | .FLOAT => (TypeSpec.mk .BaseFloat none [], advanceP s)
    | .BOOLKW => (TypeSpec.mk .BaseBool none [], advanceP s)
    | .UUID => (TypeSpec.mk .BaseUUID none [], advanceP s)
    | .DATE => (TypeSpec.mk .BaseDate none [], advanceP s)
    | .TIME => (TypeSpec.mk .BaseTime none [], advanceP s)
    | .DATETIME => (TypeSpec.mk .BaseDateTime none [], advanceP s)
    | .JSON => (TypeSpec.mk .BaseJSON none [], advanceP s)
    | .BLOB => (TypeSpec.mk .BaseBlob none [], advanceP s)
    | .ARRAY =>
      let s := advanceP s
      let (_, s) := expectT .LT s
      let (elem, s) := parseTypeSpec fuel s
      let (_, s) := expectT .GT s
      (TypeSpec.mk .BaseString (some elem) [], s)
    | .ENUM =>
      let s := advanceP s
      let (_, s) := expectT .LT s
      let (v0, s) := expectT .STRING s
      let (vals, s) := enumValsLoop fuel [v0.Lit] s
      let (_, s) := expectT .GT s
      (TypeSpec.mk .BaseString none vals, s)
    | _ =>
      let t := curTok s
      let s1 := errf s t.Line t.Column ("expected type, found " ++ t.Typ.String)
      (TypeSpec.mk .BaseString none [], advanceP s1)

/-- Field-option loop of `parseFieldDef`. -/
def fieldOptionsLoop : Nat → FieldDef → PState → FieldDef × PState
  | 0, fd, s => (fd, s)
  | fuel + 1, fd, s =>
    match (curTok s).Typ with
    | .PRIMARY =>
      let s := advanceP s
      let (_, s) := expectT .KEY s
      fieldOptionsLoop fuel { fd with PrimaryKey := true } s
    | .UNIQUE =>
      fieldOptionsLoop fuel { fd with Unique := true } (advanceP s)
    | .NOT =>
      let s := advanceP s
      let (_, s) := expectT .NULL s
      fieldOptionsLoop fuel { fd with NotNull := true } s
    | .DEFAULT =>
      let s := advanceP s
      let (lit, s) := parseLiteral s
      fieldOptionsLoop fuel { fd with Default := some lit } s
    | _ => (fd, s)

/-- Go `parseFieldDef`. -/
def parseFieldDef (fuel : Nat) (s : PState) : FieldDef × PState :=
  let (ident, s) := expectT .IDENT s
  let fd : FieldDef :=
    { Name := ident.Lit, Typ := TypeSpec.mk .BaseString none []
      PrimaryKey := false, Unique := false, NotNull := false
      Default := none, Line := ident.Line, Col := ident.Column }
  let (_, s) := expectT .COLON s
  let (ts, s) := parseTypeSpec fuel s
  fieldOptionsLoop fuel { fd with Typ := ts } s

/-- Field-list loop shared by `parseCreateNode` and the PROPS list of
`parseCreateEdge` (trailing comma tolerated). -/
def fieldListLoop : Nat → List FieldDef → PState → List FieldDef × PState
  | 0, acc, s => (acc, s)
  | fuel + 1, acc, s =>
    let (fd, s) := parseFieldDef fuel s
    let acc := if fd.Name ≠ "" then acc ++ [fd] else acc
    let (b, s) := matchT .COMMA s
    if !b then (acc, s)
    else if (curTok s).Typ = .RPAREN then (acc, s)
    else fieldListLoop fuel acc s

/-- Go `parseCreateNode`. -/
def parseCreateNode (fuel : Nat) (line col : Nat) (s : PState) : CreateNodeStmt × PState :=
  let (nameTok, s) := expectT .IDENT s
  let (_, s) := expectT .LPAREN s
  let (fields, s) :=
    if (curTok s).Typ ≠ .RPAREN then fieldListLoop fuel [] s else ([], s)
  let (_, s) := expectT .RPAREN s
  ({ Name := nameTok.Lit, Fields := fields, Line := line, Col := col }, s)

/-- Go `parseEndpoint`. -/
def parseEndpoint (s : PState) : Endpoint × PState :=
  let (lbl, s) := expectT .IDENT s
  match (curTok s).Typ with
  | .ONE => ({ Label := lbl.Lit, Card := .CardOne }, advanceP s)
  | .MANY => ({ Label := lbl.Lit, Card := .CardMany }, advanceP s)
  | _ => ({ Label := lbl.Lit, Card := .CardOne }, s)

/-- Go `parseCreateEdge`. -/
def parseCreateEdge (fuel : Nat) (line col : Nat) (s : PState) : CreateEdgeStmt × PState :=
  let (nameTok, s) := expectT .IDENT s
  let (_, s) := expectT .LPAREN s
  let (_, s) := expectT .FROM s
  let (fromEp, s) := parseEndpoint s
  let (_, s) := expectT .COMMA s
  let (_, s) := expectT .TO s
  let (toEp, s) := parseEndpoint s
  let (b, s) := matchT .COMMA s
  let (props, s) :=
    if b then
      let (_, s) := expectT .PROPS s
      let (_, s) := expectT .LPAREN s
      let (props, s) :=
        if (curTok s).Typ ≠ .RPAREN then fieldListLoop fuel [] s else ([], s)
      let (_, s) := expectT .RPAREN s
      (props, s)
    else ([], s)
  let (_, s) := expectT .RPAREN s
  ({ Name := nameTok.Lit, From := fromEp, To := toEp, Props := props
     Line := line, Col := col }, s)

/-- Primary-key field-name list of `parseAlterNode` (`SET PRIMARY KEY`). -/
def pkFieldsLoop : Nat → List String → PState → List String × PState
  | 0, acc, s => (acc, s)
  | fuel + 1, acc, s =>
    let (fieldName, s) := expectT .IDENT s
    let acc := acc ++ [fieldName.Lit]
    let (b, s) := matchT .COMMA s
    if b then pkFieldsLoop fuel acc s else (acc, s)

/-- Go `parseAlterNode`. -/
def parseAlterNode (fuel : Nat) (line col : Nat) (s : PState) : Option AlterNodeStmt × PState :=
  let (name, s) := expectT .IDENT s
  let base : AlterNodeStmt :=
    { Name := name.Lit, Action := .AlterAddField, Field := none
      FieldName := "", PkFields := [], Line := line, Col := col }
  match (curTok s).Typ with
  | .ADD =>
    let s := advanceP s
    let (field, s) := parseFieldDef fuel s
    (some { base with Action := .AlterAddField, Field := some field }, s)
  | .DROP =>
    let s := advanceP s
    let (fieldName, s) := expectT .IDENT s
    (some { base with Action := .AlterDropField, FieldName := fieldName.Lit }, s)
  | .MODIFY =>
    let s := advanceP s
    let (field, s) := parseFieldDef fuel s
    (some { base with Action := .AlterModifyField, Field := some field }, s)
  | .SET =>
    let s := advanceP s
    let (_, s) := expectT .PRIMARY s
    let (_, s) := expectT .KEY s
    let (_, s) := expectT .LPAREN s
    let (pkFields, s) := pkFieldsLoop fuel [] s
    let (_, s) := expectT .RPAREN s
    (some { base with Action := .AlterSetPrimaryKey, PkFields := pkFields }, s)
  | _ =>
    let t := curTok s
    (none, errf s t.Line t.Column "expected ADD, DROP, MODIFY, or SET after ALTER NODE")

/-- Go `parseAlterEdge`. -/
def parseAlterEdge (fuel : Nat) (line col : Nat) (s : PState) : Option AlterEdgeStmt × PState :=
  let (name, s) := expectT .IDENT s
  let base : AlterEdgeStmt :=
    { Name := name.Lit, Action := .AlterAddProp, PropF := none
      PropName := "", From := none, To := none, Line := line, Col := col }
  match (curTok s).Typ with
  | .ADD =>
    let s := advanceP s
    let (prop, s) := parseFieldDef fuel s
    (some { base with Action := .AlterAddProp, PropF := some prop }, s)
  | .DROP =>
    let s := advanceP s
    let (propName, s) := expectT .IDENT s
    (some { base with Action := .AlterDropProp, PropName := propName.Lit }, s)
  | .MODIFY =>
    let s := advanceP s
    let (prop, s) := parseFieldDef fuel s
    (some { base with Action := .AlterModifyProp, PropF := some prop }, s)
  | .SET =>
    let s := advanceP s
    let (_, s) := expectT .FROM s
    let (fromEp, s) := parseEndpoint s
    let (_, s) := expectT .TO s
    let (toEp, s) := parseEndpoint s
    (some { base with Action := .AlterSetEndpoints, From := some fromEp, To := some toEp }, s)
  | _ =>
    let t := curTok s
    (none, errf s t.Line t.Column "expected ADD, DROP, MODIFY, or SET after ALTER EDGE")

/-- Go `parseDropNode`. -/
def parseDropNode (line col : Nat) (s : PState) : DropNodeStmt × PState :=
  let (name, s) := expectT .IDENT s
  ({ Name := name.Lit, Line := line, Col := col }, s)

/-- Go `parseDropEdge` (ast.go revision): the expected IDENT is consumed
but its token is discarded; the statement's name is taken from the token
after it, and one more token is consumed. -/
def parseDropEdge (line col : Nat) (s : PState) : DropEdgeStmt × PState :=
  let (_, s) := expectT .IDENT s
  let name := (curTok s).Lit
  let s := advanceP s
  ({ Name := name, Line := line, Col := col }, s)

/-- Go `parsePropertyList` (the `Line`/`Col` of a property are read from
the token after its name identifier, as in the source). -/
def parsePropertyList : Nat → List Property → PState → List Property × PState
  | 0, acc, s => (acc, s)
  | fuel + 1, acc, s =>
    let (identTok, s) := expectT .IDENT s
    let after := curTok s
    let (_, s) := expectT .COLON s
    let (lit, s) := parseLiteral s
    let prop : Property :=
      { Name := identTok.Lit, Value := lit, Line := after.Line, Col := after.Column }
    let acc := acc ++ [prop]
    let (b, s) := matchT .COMMA s
    if b then parsePropertyList fuel acc s else (acc, s)

/-- Go `parseNodeRef`. -/
def parseNodeRef (fuel : Nat) (s : PState) : NodeRef × PState :=
  let start := curTok s
  let (nodeType, s) := expectT .IDENT s
  let (b, s) := matchT .LPAREN s
  if b then
    if (curTok s).Typ = .NUMBER || (curTok s).Typ = .STRING then
      let (lit, s) := parseLiteral s
      let (_, s) := expectT .RPAREN s
      ({ NodeType := nodeType.Lit, ID := some lit, Properties := []
         Line := start.Line, Col := start.Column }, s)
    else
      let (props, s) := parsePropertyList fuel [] s
      let (_, s) := expectT .RPAREN s
      ({ NodeType := nodeType.Lit, ID := none, Properties := props
         Line := start.Line, Col := start.Column }, s)
  else
    ({ NodeType := nodeType.Lit, ID := none, Properties := []
       Line := start.Line, Col := start.Column }, s)

/-- Go `parseInsertNode`. -/
def parseInsertNode (fuel : Nat) (line col : Nat) (s : PState) : InsertNodeStmt × PState :=
  let (_, s) := expectT .NODE s
  let (nodeType, s) := expectT .IDENT s
  let (b, s) := matchT .LPAREN s
  let (props, s) :=
    if b then
      let (props, s) := parsePropertyList fuel [] s
      let (_, s) := expectT .RPAREN s
      (props, s)
    else ([], s)
  ({ NodeType := nodeType.Lit, Properties := props, Line := line, Col := col }, s)

/-- Go `parseInsertEdge`. -/
def parseInsertEdge (fuel : Nat) (line col : Nat) (s : PState) : InsertEdgeStmt × PState :=
  let (_, s) := expectT .EDGE s
  let (edgeType, s) := expectT .IDENT s
  let (_, s) := expectT .FROM s
  let (fromNode, s) := parseNodeRef fuel s
  let (_, s) := expectT .TO s
  let (toNode, s) := parseNodeRef fuel s
  let (b, s) := matchT .LPAREN s
  let (props, s) :=
    if b then
      let (props, s) := parsePropertyList fuel [] s
      let (_, s) := expectT .RPAREN s
      (props, s)
    else ([], s)
  ({ EdgeType := edgeType.Lit, FromNode := fromNode, ToNode := toNode
     Properties := props, Line := line, Col := col }, s)

/-- Go `parseUpdateNode`. -/
def parseUpdateNode (fuel : Nat) (line col : Nat) (s : PState) : UpdateNodeStmt × PState :=
  let (_, s) := expectT .NODE s
  let (nodeType, s) := expectT .IDENT s
  let (_, s) := expectT .SET s
  let (setProps, s) := parsePropertyList fuel [] s
  let (b, s) := matchT .WHERE s
  let (whereProps, s) := if b then parsePropertyList fuel [] s else ([], s)
  ({ NodeType := nodeType.Lit, Set := setProps, Where := whereProps
     Line := line, Col := col }, s)

/-- Go `parseUpdateEdge`. -/
def parseUpdateEdge (fuel : Nat) (line col : Nat) (s : PState) : UpdateEdgeStmt × PState :=
  let (_, s) := expectT .EDGE s
  let (edgeType, s) := expectT .IDENT s
  let (_, s) := expectT .SET s
  let (setProps, s) := parsePropertyList fuel [] s
  let (b, s) := matchT .WHERE s
  let (whereProps, s) := if b then parsePropertyList fuel [] s else ([], s)
  ({ EdgeType := edgeType.Lit, Set := setProps, Where := whereProps
     Line := line, Col := col }, s)

/-- Go `parseDeleteNode`. -/
def parseDeleteNode (fuel : Nat) (line col : Nat) (s : PState) : DeleteNodeStmt × PState :=
  let (_, s) := expectT .NODE s
  let (nodeType, s) := expectT .IDENT s
  let (_, s) := expectT .WHERE s
  let (whereProps, s) := parsePropertyList fuel [] s
  ({ NodeType := nodeType.Lit, Where := whereProps, Line := line, Col := col }, s)

/-- Go `parseDeleteEdge`. -/
def parseDeleteEdge (fuel : Nat) (line col : Nat) (s : PState) : DeleteEdgeStmt × PState :=
  let (_, s) := expectT .EDGE s
  let (edgeType, s) := expectT .IDENT s
  let (_, s) := expectT .WHERE s
  let (whereProps, s) := parsePropertyList fuel [] s
  ({ EdgeType := edgeType.Lit, Where := whereProps, Line := line, Col := col }, s)

/-- Pattern-element loop of `parseMatch`. -/
def matchPatternLoop : Nat → List MatchElement → PState → List MatchElement × PState
  | 0, acc, s => (acc, s)
  | fuel + 1, acc, s =>
    if (curTok s).Typ = .IDENT then
      let t := curTok s
      let s := advanceP s
      let (aliasName, s) :=
        if (curTok s).Typ = .IDENT then ((curTok s).Lit, advanceP s) else ("", s)
      let elem : MatchElement :=
        { Typ := t.Lit, Alias := aliasName, Properties := [], IsEdge := false
          Line := t.Line, Col := t.Column }
      let acc := acc ++ [elem]
      let (b, s) := matchT .COMMA s
      if b then matchPatternLoop fuel acc s else (acc, s)
    else (acc, s)

/-- RETURN field-name loop of `parseMatch`. -/
def returnFieldsLoop : Nat → List String → PState → List String × PState
  | 0, acc, s => (acc, s)
  | fuel + 1, acc, s =>
    let (f, s) := expectT .IDENT s
    let acc := acc ++ [f.Lit]
    let (b, s) := matchT .COMMA s
    if b then returnFieldsLoop fuel acc s else (acc, s)

/-- Go `parseMatch`. -/
def parseMatch (fuel : Nat) (line col : Nat) (s : PState) : MatchStmt × PState :=
  let (_, s) := expectT .MATCH s
  let (pattern, s) := matchPatternLoop fuel [] s
  let (b, s) := matchT .WHERE s
  let (whereProps, s) := if b then parsePropertyList fuel [] s else ([], s)
  let (b2, s) := matchT .RETURN s
  let (returnFields, s) := if b2 then returnFieldsLoop fuel [] s else ([], s)
  ({ Pattern := pattern, Where := whereProps, Return := returnFields
     Line := line, Col := col }, s)

/-- Go `parseCreate`. -/
def parseCreate (fuel : Nat) (s : PState) : Option Stmt × PState :=
  let createTok := curTok s
  let s := advanceP s
  match (curTok s).Typ with
  | .NODE =>
    let s := advanceP s
    let (st, s) := parseCreateNode fuel createTok.Line createTok.Column s
    (some (.createNode st), s)
  | .EDGE =>
    let s := advanceP s
    let (st, s) := parseCreateEdge fuel createTok.Line createTok.Column s
    (some (.createEdge st), s)
  | _ =>
    let t := curTok s
    (none, errf s t.Line t.Column "expected NODE or EDGE after CREATE")

/-- Go `parseAlter`. -/
def parseAlter (fuel : Nat) (s : PState) : Option Stmt × PState :=
  let alterTok := curTok s
  let s := advanceP s
  match (curTok s).Typ with
  | .NODE =>
    let s := advanceP s
    let (st?, s) := parseAlterNode fuel alterTok.Line alterTok.Column s
    (st?.map .alterNode, s)
  | .EDGE =>
    let s := advanceP s
    let (st?, s) := parseAlterEdge fuel alterTok.Line alterTok.Column s
    (st?.map .alterEdge, s)
  | _ =>
    let t := curTok s
    (none, errf s t.Line t.Column "expected NODE or EDGE after ALTER")

/-- Go `parseDrop`. -/
def parseDrop (s : PState) : Option Stmt × PState :=
  let dropTok := curTok s
  let s := advanceP s
  match (curTok s).Typ with
  | .NODE =>
    let s := advanceP s
    let (st, s) := parseDropNode dropTok.Line dropTok.Column s
    (some (.dropNode st), s)
  | .EDGE =>
    let s := advanceP s
    let (st, s) := parseDropEdge dropTok.Line dropTok.Column s
    (some (.dropEdge st), s)
  | _ =>
    let t := curTok s
    (none, errf s t.Line t.Column "expected NODE or EDGE after DROP")

/-- Go `parseInsert`. -/
def parseInsert (fuel : Nat) (s : PState) : Option Stmt × PState :=
  let line := (curTok s).Line
  let col := (curTok s).Column
  let (_, s) := expectT .INSERT s
  match (curTok s).Typ with
  | .NODE =>
    let (st, s) := parseInsertNode fuel line col s
    (some (.insertNode st), s)
  | .EDGE =>
    let (st, s) := parseInsertEdge fuel line col s
    (some (.insertEdge st), s)
  | _ =>
    let t := curTok s
    (none, errf s t.Line t.Column
      ("expected NODE or EDGE after INSERT, found " ++ t.Typ.String))

/-- Go `parseUpdate`. -/
def parseUpdate (fuel : Nat) (s : PState) : Option Stmt × PState :=
  let line := (curTok s).Line
  let col := (curTok s).Column
  let (_, s) := expectT .UPDATE s
  match (curTok s).Typ with
  | .NODE =>
    let (st, s) := parseUpdateNode fuel line col s
    (some (.updateNode st), s)
  | .EDGE =>
    let (st, s) := parseUpdateEdge fuel line col s
    (some (.updateEdge st), s)
  | _ =>
    let t := curTok s
    (none, errf s t.Line t.Column
      ("expected NODE or EDGE after UPDATE, found " ++ t.Typ.String))

/-- Go `parseDelete`. -/
def parseDelete (fuel : Nat) (s : PState) : Option Stmt × PState :=
  let line := (curTok s).Line
  let col := (curTok s).Column
  let (_, s) := expectT .DELETE s
  match (curTok s).Typ with
  | .NODE =>
    let (st, s) := parseDeleteNode fuel line col s
    (some (.deleteNode st), s)
  | .EDGE =>
    let (st, s) := parseDeleteEdge fuel line col s
    (some (.deleteEdge st), s)
  | _ =>
    let t := curTok s
    (none, errf s t.Line t.Column
      ("expected NODE or EDGE after DELETE, found " ++ t.Typ.String))

/-- Go `parseStmt`. -/
def parseStmt (fuel : Nat) (s : PState) : Option Stmt × PState :=
  match (curTok s).Typ with
  | .CREATE => parseCreate fuel s
  | .ALTER => parseAlter fuel s
  | .DROP => parseDrop s
  | .INSERT => parseInsert fuel s
  | .UPDATE => parseUpdate fuel s
  | .DELETE => parseDelete fuel s
  | .MATCH =>
    let line := (curTok s).Line
    let col := (curTok s).Column
    let (st, s) := parseMatch fuel line col s
    (some (.matchStmt st), s)
  | _ =>
    let t := curTok s
    (none, errf s t.Line t.Column
      ("unexpected token " ++ t.Typ.String ++ " at start of statement"))

/-- Statement loop of `ParseScript`. -/
def parseScriptLoop : Nat → PState → List Stmt × PState
  | 0, s => ([], s)
  | fuel + 1, s =>
    if (curTok s).Typ = .EOF then ([], s)
    else
      let (b, s) := matchT .SEMI s
      if b then parseScriptLoop fuel s
      else
        let (st?, s) := parseStmt fuel s
        match st? with
        | none => parseScriptLoop fuel s
        | some st =>
          let (b2, s) := matchT .SEMI s
          let s :=
            if b2 then s
            else
              let t := curTok s
              errf s t.Line t.Column
                ("missing " ++ catalog.sq ++ ";" ++ catalog.sq ++ " after statement")
          let (rest, s) := parseScriptLoop fuel s
          (st :: rest, s)

/-- Go `NewParser(input).ParseScript()`: statements plus collected
errors. -/
def ParseScript (input : String) : List Stmt × List ParseError :=
  let toks := tokenize input
  let s0 : PState := { toks := toks, errors := [] }
  let (stmts, s) := parseScriptLoop (toks.length + 2) s0
  (stmts, s.errors)

end parser

/-! Package `executor` (part_002): graph data and statement execution. -/

namespace executor

/-- Values stored in a Go `map[string]interface{}` property map: the
executor only ever stores strings (string and number literals), booleans
and `nil`.  Go interface equality on these is `DecidableEq` here. -/
inductive GoVal where
  | str (s : String)
  | boolv (b : Bool)
  | null
deriving DecidableEq

structure EdgeInstance where
  ID : String
  FromNodeID : String
  ToNodeID : String
  Properties : StrMap GoVal
deriving DecidableEq

/-- Go `GraphData` (`NextID int64` as `Nat`; the `interface{}` stored per
node id is always a property map, so the inner map is typed). -/
structure GraphData where
  Nodes : StrMap (StrMap (StrMap GoVal))
  Edges : StrMap (List EdgeInstance)
  NextID : Nat

/-- Graph of a fresh executor (`executor.New`). -/
def newGraph : GraphData :=
  { Nodes := [], Edges := [], NextID := 1 }

/-- Executor-visible state: the registry published catalog and offset, the
abstract store state behind it, and the in-memory graph. -/
structure ExecState (σ : Type) where
  reg : catalog.Registry
  store : σ
  graph : GraphData

/-- Go `convertBaseType` (executor copy). -/
def convertBaseType : parser.BaseType → catalog.BaseType
  | .BaseString => .BaseString
  | .BaseText => .BaseText
  | .BaseInt => .BaseInt
  | .BaseFloat => .BaseFloat
  | .BaseBool => .BaseBool
  | .BaseUUID => .BaseUUID
  | .BaseDate => .BaseDate
  | .BaseTime => .BaseTime
  | .BaseDateTime => .BaseDateTime
  | .BaseJSON => .BaseJSON
  | .BaseBlob => .BaseBlob

/-- Go `convertTypeSpec` (the copy-if-non-empty of `EnumVals` is the
identity on lists). -/
def convertTypeSpec : parser.TypeSpec → catalog.TypeSpec
  | .mk b none vs => .mk (convertBaseType b) none vs
  | .mk b (some e) vs => .mk (convertBaseType b) (some (convertTypeSpec e)) vs

/-- Go `convertCardinality`. -/
def convertCardinality : parser.Cardinality → catalog.Cardinality
  | .CardOne => .One
  | .CardMany => .Many

/-- Literal evaluation shared by the insert/update/condition switches. -/
def litToVal (l : parser.Literal) : GoVal :=
  match l.Kind with
  | .LitString => .str l.Text
  | .LitNumber => .str l.Text
  | .LitBool => .boolv (l.Text = "true")
  | .LitNull => .null

/-- Property-map construction loop (later duplicates overwrite). -/
def buildProps (props : List parser.Property) : StrMap GoVal :=
  props.foldl (fun m p => m.put p.Name (litToVal p.Value)) []

/-- Go `matchesConditions` (the stored value is always a property map, so
the type assertion always succeeds). -/
def matchesConditions (props : StrMap GoVal) (conditions : List parser.Property) : Bool :=
  conditions.all fun c =>
    match props.get? c.Name with
    | none => false
    | some v => v = litToVal c.Value

/-- Required-field scan of `executeInsertNode` (first `NotNull` field not
present in the provided properties; which one is reported first is Go map
iteration order, modelled by list order). -/
def findMissingRequired : StrMap catalog.FieldSpec → StrMap GoVal → Option String
  | [], _ => none
  | (fieldName, fs) :: rest, props =>
    if fs.NotNull && !(props.contains fieldName) then some fieldName
    else findMissingRequired rest props

/-- SET-clause application of the update statements. -/
def applySet (props : StrMap GoVal) (setProps : List parser.Property) : StrMap GoVal :=
  setProps.foldl (fun m p => m.put p.Name (litToVal p.Value)) props

/-- Go `AlterAction` renders as its integer value under `%v`. -/
def alterActionNum : parser.AlterAction → Nat
  | .AlterAddField => 0
  | .AlterDropField => 1
  | .AlterModifyField => 2
  | .AlterSetPrimaryKey => 3
  | .AlterAddProp => 4
  | .AlterDropProp => 5
  | .AlterModifyProp => 6
  | .AlterSetEndpoints => 7

/-- Field payload built by `executeCreateNode` (keeps `PrimaryKey`). -/
def fieldPayloadOfNodeField (field : parser.FieldDef) : catalog.FieldPayload :=
  { Name := field.Name, Typ := convertTypeSpec field.Typ
    PrimaryKey := field.PrimaryKey, Unique := field.Unique
    NotNull := field.NotNull
    DefaultRaw := field.Default.map (fun d => d.Text) }

/-- Field payload built everywhere else (`PrimaryKey` left at its zero
value, as in the source). -/
def fieldPayloadNoPK (field : parser.FieldDef) : catalog.FieldPayload :=
  { Name := field.Name, Typ := convertTypeSpec field.Typ
    PrimaryKey := false, Unique := field.Unique
    NotNull := field.NotNull
    DefaultRaw := field.Default.map (fun d => d.Text) }

/-- Shared tail of the six DDL `execute*` helpers: run the event through
`Registry.Apply` and keep the updated registry/store state. -/
def runDDL {σ : Type} (ops : catalog.StoreOps σ) (st : ExecState σ)
    (ev : catalog.DDLEvent) : Except String Unit × ExecState σ :=
  match catalog.Registry.Apply ops st.reg st.store ev with
  | (.error e, r', s') => (.error e, { st with reg := r', store := s' })
  | (.ok _, r', s') => (.ok (), { st with reg := r', store := s' })

/-- Go `executeCreateNode`. -/
def executeCreateNode {σ : Type} (ops : catalog.StoreOps σ) (st : ExecState σ)
    (stmt : parser.CreateNodeStmt) : Except String Unit × ExecState σ :=
  let payload : catalog.CreateNodePayload :=
    { Name := stmt.Name, Fields := stmt.Fields.map fieldPayloadOfNodeField }
  runDDL ops st (.createNode payload)

/-- Go `executeCreateEdge`. -/
def executeCreateEdge {σ : Type} (ops : catalog.StoreOps σ) (st : ExecState σ)
    (stmt : parser.CreateEdgeStmt) : Except String Unit × ExecState σ :=
  let payload : catalog.CreateEdgePayload :=
    { Name := stmt.Name
      From := { Label := stmt.From.Label, Card := convertCardinality stmt.From.Card }
      To := { Label := stmt.To.Label, Card := convertCardinality stmt.To.Card }
      Props := stmt.Props.map fieldPayloadNoPK }
  runDDL ops st (.createEdge payload)

/-- Go `executeAlterNode`. -/
def executeAlterNode {σ : Type} (ops : catalog.StoreOps σ) (st : ExecState σ)
    (stmt : parser.AlterNodeStmt) : Except String Unit × ExecState σ :=
  let mkAction : Option catalog.NodeAlterAction :=
    match stmt.Action with
    | .AlterAddField =>
      some { Typ := "ADD_FIELD", Field := stmt.Field.map fieldPayloadNoPK, FieldName := "" }
    | .AlterDropField =>
      some { Typ := "DROP_FIELD", Field := none, FieldName := stmt.FieldName }
    | .AlterModifyField =>
      some { Typ := "MODIFY_FIELD", Field := stmt.Field.map fieldPayloadNoPK, FieldName := "" }
    | .AlterSetPrimaryKey =>
      some { Typ := "SET_PRIMARY_KEY", Field := none
             FieldName := String.intercalate "," stmt.PkFields }
    | _ => none
  match mkAction with
  | none => (.error ("unsupported alter node action: " ++ toString (alterActionNum stmt.Action)), st)
  | some action =>
    let payload : catalog.AlterNodePayload := { Name := stmt.Name, Actions := [action] }
    runDDL ops st (.alterNode payload)

/-- Go `executeAlterEdge` (for `AlterSetEndpoints` with both endpoints
absent, the zero-valued action goes through, as in the source). -/
def executeAlterEdge {σ : Type} (ops : catalog.StoreOps σ) (st : ExecState σ)
    (stmt : parser.AlterEdgeStmt) : Except String Unit × ExecState σ :=
  let zeroAction : catalog.EdgeAlterAction :=
    { Typ := "", PropF := none, PropName := "", Endpoint := "", NewEndpoint := none }
  let mkAction : Option catalog.EdgeAlterAction :=
    match stmt.Action with
    | .AlterAddProp =>
      some { zeroAction with Typ := "ADD_PROP", PropF := stmt.PropF.map fieldPayloadNoPK }
    | .AlterDropProp =>
      some { zeroAction with Typ := "DROP_PROP", PropName := stmt.PropName }
    | .AlterModifyProp =>
      some { zeroAction with Typ := "MODIFY_PROP", PropF := stmt.PropF.map fieldPayloadNoPK }
    | .AlterSetEndpoints =>
      some (match stmt.From with
        | some f =>
          { zeroAction with
            Typ := "CHANGE_ENDPOINT"
            Endpoint := "FROM"
            NewEndpoint := some { Label := f.Label, Card := convertCardinality f.Card } }
        | none =>
          match stmt.To with
          | some t =>
            { zeroAction with
              Typ := "CHANGE_ENDPOINT"
              Endpoint := "TO"
              NewEndpoint := some { Label := t.Label, Card := convertCardinality t.Card } }
          | none => zeroAction)
    | _ => none
  match mkAction with
  | none => (.error ("unsupported alter edge action: " ++ toString (alterActionNum stmt.Action)), st)
  | some action =>
    let payload : catalog.AlterEdgePayload := { Name := stmt.Name, Actions := [action] }
    runDDL ops st (.alterEdge payload)

/-- Go `executeDropNode`. -/
def executeDropNode {σ : Type} (ops : catalog.StoreOps σ) (st : ExecState σ)
    (stmt : parser.DropNodeStmt) : Except String Unit × ExecState σ :=
  runDDL ops st (.dropNode { Name := stmt.Name })

/-- Go `executeDropEdge`. -/
def executeDropEdge {σ : Type} (ops : catalog.StoreOps σ) (st : ExecState σ)
    (stmt : parser.DropEdgeStmt) : Except String Unit × ExecState σ :=
  runDDL ops st (.dropEdge { Name := stmt.Name })

/-- Go `executeInsertNode`: the id is allocated and the type bucket is
created before the required-field check runs, exactly as in the source. -/
def executeInsertNode {σ : Type} (st : ExecState σ)
    (stmt : parser.InsertNodeStmt) : Except String Unit × ExecState σ :=
  match st.reg.cur.Nodes.get? stmt.NodeType with
  | none =>
    (.error ("node type " ++ catalog.sq ++ stmt.NodeType ++ catalog.sq ++ " does not exist"), st)
  | some nodeType =>
    let nodeID := toString st.graph.NextID
    let g := { st.graph with NextID := st.graph.NextID + 1 }
    let g :=
      if (g.Nodes.get? stmt.NodeType).isSome then g
      else { g with Nodes := g.Nodes.put stmt.NodeType [] }
    let properties := buildProps stmt.Properties
    match findMissingRequired nodeType.Fields properties with
    | some fieldName =>
      (.error ("required field " ++ catalog.sq ++ fieldName ++ catalog.sq ++ " is missing"),
        { st with graph := g })
    | none =>
      let properties := properties.put "_id" (.str nodeID)
      let bucket := (g.Nodes.get? stmt.NodeType).getD []
      let g := { g with Nodes := g.Nodes.put stmt.NodeType (bucket.put nodeID properties) }
      (.ok (), { st with graph := g })

/-- Property-match scan of `findNodeID` (Go map iteration order modelled
by list order: the first matching node in bucket order). -/
def findFirstMatching (ref : parser.NodeRef) : StrMap (StrMap GoVal) → Except String String
  | [] => .error "no matching node found"
  | (nodeID, nodeProps) :: rest =>
    if matchesConditions nodeProps ref.Properties then .ok nodeID
    else findFirstMatching ref rest

/-- Go `findNodeID`. -/
def findNodeID (g : GraphData) (ref : parser.NodeRef) : Except String String :=
  match g.Nodes.get? ref.NodeType with
  | none =>
    .error ("no nodes of type " ++ catalog.sq ++ ref.NodeType ++ catalog.sq ++ " found")
  | some nodes =>
    match ref.ID with
    | some idLit =>
      if nodes.contains idLit.Text then .ok idLit.Text
      else .error ("node with ID " ++ catalog.sq ++ idLit.Text ++ catalog.sq ++ " not found")
    | none => findFirstMatching ref nodes

/-- Go `executeInsertEdge`. -/
def executeInsertEdge {σ : Type} (st : ExecState σ)
    (stmt : parser.InsertEdgeStmt) : Except String Unit × ExecState σ :=
  match st.reg.cur.Edges.get? stmt.EdgeType with
  | none =>
    (.error ("edge type " ++ catalog.sq ++ stmt.EdgeType ++ catalog.sq ++ " does not exist"), st)
  | some edgeType =>
    match findNodeID st.graph stmt.FromNode with
    | .error e => (.error ("FROM node not found: " ++ e), st)
    | .ok fromNodeID =>
      match findNodeID st.graph stmt.ToNode with
      | .error e => (.error ("TO node not found: " ++ e), st)
      | .ok toNodeID =>
        if stmt.FromNode.NodeType ≠ edgeType.From.Label then
          (.error ("FROM node type " ++ catalog.sq ++ stmt.FromNode.NodeType ++ catalog.sq ++
            " does not match edge FROM type " ++ catalog.sq ++ edgeType.From.Label ++ catalog.sq), st)
        else if stmt.ToNode.NodeType ≠ edgeType.To.Label then
          (.error ("TO node type " ++ catalog.sq ++ stmt.ToNode.NodeType ++ catalog.sq ++
            " does not match edge TO type " ++ catalog.sq ++ edgeType.To.Label ++ catalog.sq), st)
        else
          let edgeID := "edge_" ++ toString st.graph.NextID
          let g := { st.graph with NextID := st.graph.NextID + 1 }
          let properties := buildProps stmt.Properties
          let edge : EdgeInstance :=
            { ID := edgeID, FromNodeID := fromNodeID, ToNodeID := toNodeID
              Properties := properties }
          let bucket := (g.Edges.get? stmt.EdgeType).getD []
          let g := { g with Edges := g.Edges.put stmt.EdgeType (bucket ++ [edge]) }
          (.ok (), { st with graph := g })

/-- Go `executeUpdateNode`. -/
def executeUpdateNode {σ : Type} (st : ExecState σ)
    (stmt : parser.UpdateNodeStmt) : Except String Unit × ExecState σ :=
  match st.graph.Nodes.get? stmt.NodeType with
  | none =>
    (.error ("no nodes of type " ++ catalog.sq ++ stmt.NodeType ++ catalog.sq ++ " found"), st)
  | some nodes =>
    let nodes' := nodes.map fun kv =>
      if matchesConditions kv.2 stmt.Where then (kv.1, applySet kv.2 stmt.Set) else kv
    (.ok (), { st with graph := { st.graph with Nodes := st.graph.Nodes.put stmt.NodeType nodes' } })

/-- Go `executeUpdateEdge` (a missing bucket is a nil slice: zero
iterations, no error). -/
def executeUpdateEdge {σ : Type} (st : ExecState σ)
    (stmt : parser.UpdateEdgeStmt) : Except String Unit × ExecState σ :=
  match st.graph.Edges.get? stmt.EdgeType with
  | none => (.ok (), st)
  | some edges =>
    let edges' := edges.map fun e =>
      if matchesConditions e.Properties stmt.Where then
        { e with Properties := applySet e.Properties stmt.Set }
      else e
    (.ok (), { st with graph := { st.graph with Edges := st.graph.Edges.put stmt.EdgeType edges' } })

/-- Go `executeDeleteNode`. -/
def executeDeleteNode {σ : Type} (st : ExecState σ)
    (stmt : parser.DeleteNodeStmt) : Except String Unit × ExecState σ :=
  match st.graph.Nodes.get? stmt.NodeType with
  | none =>
    (.error ("no nodes of type " ++ catalog.sq ++ stmt.NodeType ++ catalog.sq ++ " found"), st)
  | some nodes =>
    let nodes' := nodes.filter fun kv => !(matchesConditions kv.2 stmt.Where)
    (.ok (), { st with graph := { st.graph with Nodes := st.graph.Nodes.put stmt.NodeType nodes' } })

/-- Go `executeDeleteEdge` (the remaining slice is assigned back even when
the bucket was absent). -/
def executeDeleteEdge {σ : Type} (st : ExecState σ)
    (stmt : parser.DeleteEdgeStmt) : Except String Unit × ExecState σ :=
  let edges := (st.graph.Edges.get? stmt.EdgeType).getD []
  let remaining := edges.filter fun e => !(matchesConditions e.Properties stmt.Where)
  (.ok (), { st with graph := { st.graph with Edges := st.graph.Edges.put stmt.EdgeType remaining } })

/-- Go `executeMatch` only writes output; the state is untouched and the
result is nil. -/
def executeMatch {σ : Type} (st : ExecState σ)
    (_stmt : parser.MatchStmt) : Except String Unit × ExecState σ :=
  (.ok (), st)

/-- Go `(*Executor).ExecuteStatement` (output writer omitted: execution
results and state do not depend on it). -/
def ExecuteStatement {σ : Type} (ops : catalog.StoreOps σ) (st : ExecState σ) :
    parser.Stmt → Except String Unit × ExecState σ
  | .createNode stmt => executeCreateNode ops st stmt
  | .createEdge stmt => executeCreateEdge ops st stmt
  | .alterNode stmt => executeAlterNode ops st stmt
  | .alterEdge stmt => executeAlterEdge ops st stmt
  | .dropNode stmt => executeDropNode ops st stmt
  | .dropEdge stmt => executeDropEdge ops st stmt
  | .insertNode stmt => executeInsertNode st stmt
  | .insertEdge stmt => executeInsertEdge st stmt
  | .updateNode stmt => executeUpdateNode st stmt
  | .updateEdge stmt => executeUpdateEdge st stmt
  | .deleteNode stmt => executeDeleteNode st stmt
  | .deleteEdge stmt => executeDeleteEdge st stmt
  | .matchStmt stmt => executeMatch st stmt

/-- The mutation type-switch of `ExecuteStatements`: every statement kind
except `MatchStmt` marks the batch as mutating. -/
def mutatesKind : parser.Stmt → Bool
  | .createNode _ => true
  | .createEdge _ => true
  | .alterNode _ => true
  | .alterEdge _ => true
  | .dropNode _ => true
  | .dropEdge _ => true
  | .insertNode _ => true
  | .insertEdge _ => true
  | .updateNode _ => true
  | .updateEdge _ => true
  | .deleteNode _ => true
  | .deleteEdge _ => true
  | .matchStmt _ => false

/-- Statement loop of `ExecuteStatements` with the `mutated`
accumulator. -/
def execStmtsLoop {σ : Type} (ops : catalog.StoreOps σ) :
    ExecState σ → Bool → List parser.Stmt → Bool × Except String Unit × ExecState σ
  | st, mutated, [] => (mutated, .ok (), st)
  | st, mutated, stmt :: rest =>
    match ExecuteStatement ops st stmt with
    | (.error e, st') => (mutated, .error e, st')
    | (.ok _, st') =>
      let mutated := if mutatesKind stmt then true else mutated
      execStmtsLoop ops st' mutated rest

/-- Go `(*Executor).ExecuteStatements`: the mutation bit plus the error
outcome (on an error the bit reflects only the statements executed before
it). -/
def ExecuteStatements {σ : Type} (ops : catalog.StoreOps σ) (st : ExecState σ)
    (stmts : List parser.Stmt) : Bool × Except String Unit × ExecState σ :=
  execStmtsLoop ops st false stmts

/-- The in-memory store of executor_test.go (`mockStore`): appends count
events, manifest updates succeed. -/
def mockStore : catalog.StoreOps (List catalog.DDLEvent) :=
  { AppendDDL := fun s ev => .ok (s.length + 1, s ++ [ev])
    UpdateManifest := fun s _ _ => .ok s }

/-- Fresh registry plus executor, as built by the executor tests (an empty
store loads the empty catalog at offset zero). -/
def newTestState : ExecState (List catalog.DDLEvent) :=
  { reg := { cur := catalog.NewEmpty, ddlOffset := 0 }, store := [], graph := newGraph }

end executor

/-! Package `server`, commit log (part_000, first document). -/

namespace server

inductive LogFormat where
  | LogFormatText
  | LogFormatBinary
deriving DecidableEq

/-- Commit-log state: the configured format, the bounded in-memory queue
(capacity 1024) and the bytes of `commit.log`.  The background writer and
its locks serialize all writes; a queue drain appends entries in FIFO
order, so the file contents after a clean `Stop` do not depend on when the
ticker fired. -/
structure CommitLog where
  format : LogFormat
  queue : List (List Nat)
  file : List Nat

/-- Go `OpenCommitLogWithFormat` (`prior` is whatever the append-mode file
already holds). -/
def OpenCommitLogWithFormat (prior : List Nat) (format : LogFormat) : CommitLog :=
  { format := format, queue := [], file := prior }

/-- Go `writeEntry`: binary is a 4-byte big-endian length then the raw
bytes, text is the bytes plus a newline when not already terminated. -/
def writeEntry (cl : CommitLog) (line : List Nat) : CommitLog :=
  match cl.format with
  | .LogFormatBinary =>
    let n := line.length
    let hdr := [n / 2 ^ 24 % 256, n / 2 ^ 16 % 256, n / 2 ^ 8 % 256, n % 256]
    { cl with file := cl.file ++ hdr ++ line }
  | .LogFormatText =>
    let nl := if line.isEmpty || line.getLast? ≠ some 10 then [10] else []
    { cl with file := cl.file ++ line ++ nl }

/-- Go `(*CommitLog).Append`: reject empty commands, enqueue while the
channel has room, otherwise write synchronously under the writer lock. -/
def CommitLog.Append (cl : CommitLog) (command : List Nat) : Except String CommitLog :=
  if command.isEmpty then .error "empty command"
  else if cl.queue.length < 1024 then .ok { cl with queue := cl.queue ++ [command] }
  else .ok (writeEntry cl command)

/-- Go `(*CommitLog).Stop`: drain the queue in order, flush and sync. -/
def CommitLog.Stop (cl : CommitLog) : CommitLog :=
  { cl.queue.foldl writeEntry cl with queue := [] }

def isSpaceByte (b : Nat) : Bool :=
  b = 32 || b = 9 || b = 10 || b = 13 || b = 11 || b = 12

/-- Go `strings.TrimSpace` on the record bytes (ASCII whitespace). -/
def trimSpaceBytes (bs : List Nat) : List Nat :=
  ((bs.dropWhile isSpaceByte).reverse.dropWhile isSpaceByte).reverse

def dropCR (bs : List Nat) : List Nat :=
  if bs.getLast? = some 13 then bs.dropLast else bs

/-- Line splitting of `bufio.ScanLines` (empty lines are produced; a final
fragment without a newline is produced; a trailing newline produces no
extra empty token). -/
def splitLinesAux : List Nat → List Nat → List (List Nat)
  | [], cur => if cur.isEmpty then [] else [dropCR cur]
  | 10 :: rest, cur => dropCR cur :: splitLinesAux rest []
  | b :: rest, cur => splitLinesAux rest (cur ++ [b])

/-- Binary replay loop: fuelled by the byte count (each record consumes at
least four bytes).  Returns the terminal outcome and the list of lines the
apply callback was invoked with, in order. -/
def replayBinaryLoop (apply : List Nat → Except String Unit) :
    Nat → List Nat → List (List Nat) → Except String Unit × List (List Nat)
  | 0, _, acc => (.ok (), acc)
  | fuel + 1, bytes, acc =>
    match bytes with
    | b0 :: b1 :: b2 :: b3 :: rest =>
      let n := b0 * 2 ^ 24 + b1 * 2 ^ 16 + b2 * 2 ^ 8 + b3
      if n > 10 * 2 ^ 20 then (.error ("invalid record length: " ++ toString n), acc)
      else if rest.length < n then (.error "replay read body", acc)
      else
        let body := rest.take n
        let rest2 := rest.drop n
        let line := trimSpaceBytes body
        if line.isEmpty then replayBinaryLoop apply fuel rest2 acc
        else
          match apply line with
          | .error e => (.error ("replay apply failed: " ++ e), acc ++ [line])
          | .ok _ => replayBinaryLoop apply fuel rest2 (acc ++ [line])
    | _ => (.ok (), acc)

/-- Text replay loop over the scanned lines. -/
def replayTextLoop (apply : List Nat → Except String Unit) :
    List (List Nat) → List (List Nat) → Except String Unit × List (List Nat)
  | [], acc => (.ok (), acc)
  | l :: rest, acc =>
    let line := trimSpaceBytes l
    if line.isEmpty then replayTextLoop apply rest acc
    else
      match apply line with
      | .error e => (.error ("replay apply failed: " ++ e), acc ++ [line])
      | .ok _ => replayTextLoop apply rest (acc ++ [line])

/-- Go `(*CommitLog).Replay`: read the log from the start in the
configured format (a truncated binary header, 0-3 bytes, ends replay
cleanly, as `io.EOF`/`io.ErrUnexpectedEOF` do in the source). -/
def CommitLog.Replay (cl : CommitLog) (apply : List Nat → Except String Unit) :
    Except String Unit × List (List Nat) :=
  match cl.format with
  | .LogFormatBinary => replayBinaryLoop apply (cl.file.length + 1) cl.file []
  | .LogFormatText => replayTextLoop apply (splitLinesAux cl.file []) []

/-- ASCII command text as bytes (the commands in the scenarios are
ASCII). -/
def strBytes (s : String) : List Nat :=
  s.data.map (fun c => c.toNat % 256)

end server

/-! Specification-side predicates and concrete fixtures used by the
claim theorems and their witnesses. -/

/-- Number-lexeme shape the spec states: one or more digits, optionally
followed by a dot and ONE or more digits. -/
def specNumberLexeme (s : String) : Bool :=
  let ds := s.data.takeWhile Char.isDigit
  let rest := s.data.drop ds.length
  !ds.isEmpty &&
    (match rest with
     | [] => true
     | c :: tl => c = '.' && tl.all Char.isDigit && !tl.isEmpty)

/-- Number-lexeme shape `lexNumber` actually produces: one or more
digits, optionally followed by a dot and ZERO or more digits. -/
def codeNumberLexeme (s : String) : Bool :=
  let ds := s.data.takeWhile Char.isDigit
  let rest := s.data.drop ds.length
  !ds.isEmpty &&
    (match rest with
     | [] => true
     | c :: tl => c = '.' && tl.all Char.isDigit)

/-- MATCH statements are the only kind the mutation bit ignores. -/
def isMatchStmt : parser.Stmt → Bool
  | .matchStmt _ => true
  | _ => false

/-- Minimal string field payload for the fixtures. -/
def pFieldId : catalog.FieldPayload :=
  { Name := "id", Typ := .mk .BaseString none [], PrimaryKey := false
    Unique := false, NotNull := false, DefaultRaw := none }

def cnPersonPayload : catalog.CreateNodePayload :=
  { Name := "Person", Fields := [pFieldId] }

def evPerson : catalog.DDLEvent := .createNode cnPersonPayload

/-- Catalog produced by `ApplyCreateNode` on the empty catalog and
`cnPersonPayload`. -/
def catPerson1 : catalog.Catalog :=
  { Version := 1
    Nodes := [("Person",
      { Name := "Person"
        Fields := [("id",
          { Name := "id", Typ := .mk .BaseString none [], Unique := false
            NotNull := false, DefaultRaw := none })]
        PK := ""
        Indexes := [] })]
    Edges := [] }

/-- Store whose manifest update fails (mirrors
`TestRegistryApplyManifestError`). -/
def manifestFailOps : catalog.StoreOps Unit :=
  { AppendDDL := fun _ _ => .ok (1, ())
    UpdateManifest := fun _ _ _ => .error "manifest write failed" }

def r0 : catalog.Registry :=
  { cur := catalog.NewEmpty, ddlOffset := 0 }

/-- DDL-log line whose event is valid JSON but fails Apply the second time
it appears (duplicate node name). -/
def c2line : catalog.LogLine := .event evPerson

def c2log : List catalog.LogLine := [c2line, c2line]

/-- Scenario S1 script. -/
def s1script : String :=
  "CREATE NODE Person(name: STRING, age: INT); INSERT NODE Person (name: \x27Alice\x27, age: 30);"

/-- Statement fixtures for the mutation-bit witness. -/
def matchStmtFx : parser.Stmt :=
  .matchStmt { Pattern := [], Where := [], Return := [], Line := 1, Col := 1 }

def insertMissingFx : parser.Stmt :=
  .insertNode { NodeType := "Nope", Properties := [], Line := 1, Col := 1 }

/-- Node type with a required (`NOT NULL`) field `name`, for the failed
insert scenario. -/
def c10nt : catalog.NodeType :=
  { Name := "Person"
    Fields := [("name",
      { Name := "name", Typ := .mk .BaseString none [], Unique := false
        NotNull := true, DefaultRaw := none })]
    PK := ""
    Indexes := [] }

def c10state : executor.ExecState Unit :=
  { reg := { cur := { Version := 1, Nodes := [("Person", c10nt)], Edges := [] }, ddlOffset := 1 }
    store := ()
    graph := executor.newGraph }

/-- INSERT NODE Person with no properties: the required `name` check
fails. -/
def c10stmt : parser.InsertNodeStmt :=
  { NodeType := "Person", Properties := [], Line := 1, Col := 1 }

def c10update : parser.UpdateNodeStmt :=
  { NodeType := "Person", Where := [], Set := [], Line := 1, Col := 1 }

/-- Commit-log fixtures for the binary round trip. -/
def clBin0 : server.CommitLog :=
  server.OpenCommitLogWithFormat [] .LogFormatBinary

def cmdA : List Nat := server.strBytes "A;"
def cmdB : List Nat := server.strBytes "B;"
def cmdC : List Nat := server.strBytes "C;"

/-! Claim theorems. -/

/-- C1: the claim says parsing `DROP EDGE e;` succeeds with no errors and
yields one DropEdge statement named `e`.  Evaluating the code at that
input: `parseDropEdge` discards the expected IDENT token and takes the
NEXT token's lexeme, so the statement's name is the semicolon and the
then-unconsumed semicolon triggers a `missing ';' after statement`
error.  (The repository's own `TestDropEdge` asserts the behaviour the
claim states.) -/
theorem c1_drop_edge_misparses :
    parser.ParseScript ("DROP EDGE e;") =
      ([parser.Stmt.dropEdge { Name := ";", Line := 1, Col := 1 }],
       [{ Line := 1, Col := 13
          Msg := "missing " ++ catalog.sq ++ ";" ++ catalog.sq ++ " after statement" }]) := by
  rfl

/-- C8: parsing `FOO BAR; CREATE NODE A(id:int);` returns at least one
parse error and exactly one statement, the CreateNode for `A`. -/
theorem c8_parser_recovery :
    (∃ cn : parser.CreateNodeStmt,
      (parser.ParseScript "FOO BAR; CREATE NODE A(id:int);").1 = [.createNode cn] ∧
      cn.Name = "A") ∧
    1 ≤ (parser.ParseScript "FOO BAR; CREATE NODE A(id:int);").2.length := by
  exact ⟨⟨_, rfl, rfl⟩, by decide⟩

/-- C6 (scenario S1): the script parses into two statements with no
errors; executing it on a fresh registry and executor succeeds, the
catalog has `Person` at version 1, and `Nodes["Person"]` holds exactly one
entry whose properties include `name="Alice"`, `age="30"` and the
synthetic `_id="1"`. -/
theorem c6_create_insert_scenario :
    (parser.ParseScript s1script).1.length = 2 ∧
    (parser.ParseScript s1script).2 = [] ∧
    (executor.ExecuteStatements executor.mockStore executor.newTestState
        (parser.ParseScript s1script).1).2.1 = .ok () ∧
    (executor.ExecuteStatements executor.mockStore executor.newTestState
        (parser.ParseScript s1script).1).2.2.reg.cur.Version = 1 ∧
    ((executor.ExecuteStatements executor.mockStore executor.newTestState
        (parser.ParseScript s1script).1).2.2.reg.cur.Nodes.get? "Person").isSome = true ∧
    (∃ props : StrMap executor.GoVal,
      (executor.ExecuteStatements executor.mockStore executor.newTestState
          (parser.ParseScript s1script).1).2.2.graph.Nodes.get? "Person" =
        some [("1", props)] ∧
      props.get? "name" = some (.str "Alice") ∧
      props.get? "age" = some (.str "30") ∧
      props.get? "_id" = some (.str "1")) := by
  exact ⟨rfl, rfl, rfl, rfl, rfl, ⟨_, rfl, rfl, rfl, rfl⟩⟩

/-- C5 (scenario S5): appending `A;`, `B;`, `C;` on a started
binary-format commit log, stopping, and replaying invokes the apply
callback exactly three times with those lines in order. -/
theorem c5_commitlog_binary_roundtrip :
    ∃ c1 c2 c3 : server.CommitLog,
      clBin0.Append cmdA = .ok c1 ∧
      c1.Append cmdB = .ok c2 ∧
      c2.Append cmdC = .ok c3 ∧
      c3.Stop.Replay (fun _ => .ok ()) = (.ok (), [cmdA, cmdB, cmdC]) := by
  exact ⟨_, _, _, rfl, rfl, rfl, rfl⟩

/-- Helper: a `put` binding is visible under `get?`. -/
theorem StrMap.get?_put_self {α : Type} (m : StrMap α) (k : String) (v : α) :
    (m.put k v).get? k = some v := by
  induction m with
  | nil => simp [StrMap.put, StrMap.get?]
  | cons kv rest ih =>
    by_cases h : kv.1 = k <;>
      simp [StrMap.put, StrMap.get?, h, ih]

/-- Helper: `cloneType` is the identity. -/
theorem cloneType_id : ∀ t : catalog.TypeSpec, catalog.cloneType t = t
  | .mk _ none _ => by simp [catalog.cloneType]
  | .mk _ (some e) _ => by simp [catalog.cloneType, cloneType_id e]

/-- Helper: the field-spec copy is the identity. -/
theorem cloneFieldSpec_id (v : catalog.FieldSpec) : catalog.cloneFieldSpec v = v := by
  cases v with
  | mk n t u nn d => cases d <;> simp [catalog.cloneFieldSpec, cloneType_id]

/-- Helper: mapping an identity over the values of an association list is
the identity. -/
theorem mapPairs_id {α : Type} (f : α → α) (hf : ∀ a, f a = a) :
    ∀ l : List (String × α), l.map (fun kv => (kv.1, f kv.2)) = l := by
  intro l
  induction l with
  | nil => rfl
  | cons kv rest ih => cases kv; simp [hf, ih]

/-- Helper: `cloneNodeType` is the identity. -/
theorem cloneNodeType_id (n : catalog.NodeType) : catalog.cloneNodeType n = n := by
  cases n with
  | mk name fields pk idx =>
    simp [catalog.cloneNodeType, mapPairs_id _ cloneFieldSpec_id,
      mapPairs_id (fun a => a) (fun _ => rfl)]

/-- Helper: `cloneEdgeType` is the identity. -/
theorem cloneEdgeType_id (e : catalog.EdgeType) : catalog.cloneEdgeType e = e := by
  cases e with
  | mk name f t props =>
    simp [catalog.cloneEdgeType, mapPairs_id _ cloneFieldSpec_id]

/-- Helper: `Catalog.Clone` is a value-preserving deep copy. -/
theorem catalog_clone_id (c : catalog.Catalog) : c.Clone = c := by
  cases c with
  | mk v ns es =>
    simp [catalog.Catalog.Clone, mapPairs_id _ cloneNodeType_id,
      mapPairs_id _ cloneEdgeType_id]

/-- C4: each `Apply*` is pure — the copy it builds on is a deep clone
whose value equals the input (so the input is untouched on every path),
and on success the result's version is exactly the input's version plus
one; otherwise it returns an error. -/
theorem c4_apply_functions_pure (c : catalog.Catalog) :
    c.Clone = c ∧
    (∀ p c', catalog.ApplyCreateNode c p = .ok c' → c'.Version = c.Version + 1) ∧
    (∀ p c', catalog.ApplyCreateEdge c p = .ok c' → c'.Version = c.Version + 1) ∧
    (∀ p c', catalog.ApplyAlterNode c p = .ok c' → c'.Version = c.Version + 1) ∧
    (∀ p c', catalog.ApplyAlterEdge c p = .ok c' → c'.Version = c.Version + 1) ∧
    (∀ p c', catalog.ApplyDropNode c p = .ok c' → c'.Version = c.Version + 1) ∧
    (∀ p c', catalog.ApplyDropEdge c p = .ok c' → c'.Version = c.Version + 1) := by
  refine ⟨catalog_clone_id c, ?_, ?_, ?_, ?_, ?_, ?_⟩
  · intro p c' h
    unfold catalog.ApplyCreateNode at h
    split at h
    · exact absurd h (by simp)
    · simp only [] at h
      split at h
      · exact absurd h (by simp)
      · cases h
        simp [catalog.Catalog.Clone]
  · intro p c' h
    unfold catalog.ApplyCreateEdge at h
    split at h
    · exact absurd h (by simp)
    · simp only [] at h
      split at h
      · exact absurd h (by simp)
      · cases h
        simp [catalog.Catalog.Clone]
  · intro p c' h
    unfold catalog.ApplyAlterNode at h
    split at h
    · exact absurd h (by simp)
    · simp only [] at h
      split at h
      · exact absurd h (by simp)
      · split at h
        · exact absurd h (by simp)
        · cases h
          simp [catalog.Catalog.Clone]
  · intro p c' h
    unfold catalog.ApplyAlterEdge at h
    split at h
    · exact absurd h (by simp)
    · simp only [] at h
      split at h
      · exact absurd h (by simp)
      · split at h
        · exact absurd h (by simp)
        · cases h
          simp [catalog.Catalog.Clone]
  · intro p c' h
    unfold catalog.ApplyDropNode at h
    split at h
    · exact absurd h (by simp)
    · simp only [] at h
      cases h
      simp [catalog.Catalog.Clone]
  · intro p c' h
    unfold catalog.ApplyDropEdge at h
    split at h
    · exact absurd h (by simp)
    · simp only [] at h
      cases h
      simp [catalog.Catalog.Clone]

/-- C4 witness: `ApplyCreateNode` on the empty catalog yields version 1. -/
theorem c4_apply_functions_pure_witness :
    catPerson1.Version = catalog.NewEmpty.Version + 1 :=
  (c4_apply_functions_pure catalog.NewEmpty).2.1 cnPersonPayload catPerson1 rfl

/-- C3: `Registry.Apply` is ordered and atomic — a decode/validation
failure or an `AppendDDL` failure returns the error with the published
catalog (and the store) unchanged; an `UpdateManifest` failure returns the
error, but the new catalog has already been published, so `Current()`
returns it. -/
theorem c3_registry_apply_ordered_atomic {σ : Type} (ops : catalog.StoreOps σ)
    (s : σ) (r : catalog.Registry) (ev : catalog.DDLEvent) :
    (∀ e, catalog.applyDDL r.cur ev = .error e →
      catalog.Registry.Apply ops r s ev = (.error e, r, s)) ∧
    (∀ newCat e, catalog.applyDDL r.cur ev = .ok newCat →
      ops.AppendDDL s ev = .error e →
      catalog.Registry.Apply ops r s ev = (.error e, r, s)) ∧
    (∀ newCat off s' e, catalog.applyDDL r.cur ev = .ok newCat →
      ops.AppendDDL s ev = .ok (off, s') →
      ops.UpdateManifest s' newCat.Version off = .error e →
      catalog.Registry.Apply ops r s ev =
        (.error e, { cur := newCat, ddlOffset := off }, s')) := by
  refine ⟨?_, ?_, ?_⟩
  · intro e h
    simp [catalog.Registry.Apply, h]
  · intro newCat e h1 h2
    simp [catalog.Registry.Apply, h1, h2]
  · intro newCat off s' e h1 h2 h3
    simp [catalog.Registry.Apply, h1, h2, h3]

/-- C3 witness: a manifest failure is surfaced while the new catalog is
already published. -/
theorem c3_registry_apply_ordered_atomic_witness :
    catalog.Registry.Apply manifestFailOps r0 () evPerson =
      (.error "manifest write failed", { cur := catPerson1, ddlOffset := 1 }, ()) :=
  (c3_registry_apply_ordered_atomic manifestFailOps () r0 evPerson).2.2
    catPerson1 1 () "manifest write failed" rfl rfl rfl

/-- C10: when `executeInsertNode` fails its required-field check, the
error comes back only after `NextID` was incremented and an empty bucket
for the type was created if absent; no node entry is stored, and a later
UPDATE on that type no longer fails with the missing-bucket error. -/
theorem c10_insert_failure_side_effects {σ : Type} (st : executor.ExecState σ)
    (stmt : parser.InsertNodeStmt) (nt : catalog.NodeType) (f : String)
    (hty : st.reg.cur.Nodes.get? stmt.NodeType = some nt)
    (hmiss : executor.findMissingRequired nt.Fields
      (executor.buildProps stmt.Properties) = some f) :
    (executor.executeInsertNode st stmt).1 =
      .error ("required field " ++ catalog.sq ++ f ++ catalog.sq ++ " is missing") ∧
    (executor.executeInsertNode st stmt).2.graph.NextID = st.graph.NextID + 1 ∧
    (executor.executeInsertNode st stmt).2.graph.Nodes.get? stmt.NodeType =
      some ((st.graph.Nodes.get? stmt.NodeType).getD []) ∧
    (∀ u : parser.UpdateNodeStmt, u.NodeType = stmt.NodeType →
      (executor.executeUpdateNode (executor.executeInsertNode st stmt).2 u).1 = .ok ()) := by
  cases hb : st.graph.Nodes.get? stmt.NodeType with
  | none =>
    refine ⟨?_, ?_, ?_, ?_⟩
    · simp [executor.executeInsertNode, hty, hmiss, hb]
    · simp [executor.executeInsertNode, hty, hmiss, hb]
    · simp [executor.executeInsertNode, hty, hmiss, hb, StrMap.get?_put_self]
    · intro u hu
      simp [executor.executeUpdateNode, executor.executeInsertNode, hty, hmiss, hb, hu,
        StrMap.get?_put_self]
  | some bucket =>
    refine ⟨?_, ?_, ?_, ?_⟩
    · simp [executor.executeInsertNode, hty, hmiss, hb]
    · simp [executor.executeInsertNode, hty, hmiss, hb]
    · simp [executor.executeInsertNode, hty, hmiss, hb]
    · intro u hu
      simp [executor.executeUpdateNode, executor.executeInsertNode, hty, hmiss, hb, hu]

/-- C10 witness: inserting a `Person` without the required `name` leaves
the id counter advanced and the empty bucket behind. -/
theorem c10_insert_failure_side_effects_witness :
    (executor.executeInsertNode c10state c10stmt).1 =
      .error ("required field " ++ catalog.sq ++ "name" ++ catalog.sq ++ " is missing") ∧
    (executor.executeInsertNode c10state c10stmt).2.graph.NextID =
      c10state.graph.NextID + 1 ∧
    (executor.executeUpdateNode (executor.executeInsertNode c10state c10stmt).2 c10update).1 =
      .ok () := by
  have h := c10_insert_failure_side_effects c10state c10stmt c10nt "name" rfl rfl
  exact ⟨h.1, h.2.1, h.2.2.2 c10update rfl⟩

/-- C2: the claim says `fileStore.Load` stops at the first Apply error and
returns the non-nil catalog built from the lines before it.  Evaluating
the code on a two-line log whose second line fails Apply (duplicate node):
the `cat, err = ApplyX(cat, p)` multi-assignment clobbers `cat` with the
nil result before the break, so Load returns a nil catalog — while the
one-line prefix shows the best-effort catalog (Person at version 1) that
the claim (and the source's own `return best-effort catalog` comment)
promise. -/
theorem c2_load_nil_on_apply_error :
    catalog.fileStoreLoad none 0 c2log = (none, 2) ∧
    catalog.fileStoreLoad none 0 [c2line] = (some catPerson1, 1) := by
  exact ⟨rfl, rfl⟩

/-- Helper: the mutation type-switch marks exactly the non-MATCH
statement kinds. -/
theorem mutatesKind_eq_not_match (t : parser.Stmt) :
    executor.mutatesKind t = !(isMatchStmt t) := by
  cases t <;> rfl

/-- Helper: accumulator form of the mutation-bit property of the
execution loop, by induction over the statement list. -/
theorem execStmtsLoop_mut_spec {σ : Type} (ops : catalog.StoreOps σ) :
    ∀ (stmts : List parser.Stmt) (st : executor.ExecState σ) (mut0 : Bool),
      ((executor.execStmtsLoop ops st mut0 stmts).2.1 = .ok () →
        (executor.execStmtsLoop ops st mut0 stmts).1 =
          (mut0 || stmts.any (fun t => !(isMatchStmt t)))) ∧
      (∀ e, (executor.execStmtsLoop ops st mut0 stmts).2.1 = .error e →
        ∃ pre x post stx,
          stmts = pre ++ x :: post ∧
          executor.execStmtsLoop ops st mut0 pre =
            ((executor.execStmtsLoop ops st mut0 stmts).1, .ok (), stx) ∧
          (executor.ExecuteStatement ops stx x).1 = .error e ∧
          (executor.execStmtsLoop ops st mut0 stmts).1 =
            (mut0 || pre.any (fun t => !(isMatchStmt t)))) := by
  intro stmts
  induction stmts with
  | nil =>
    intro st mut0
    constructor
    · intro _
      simp [executor.execStmtsLoop]
    · intro e h
      simp [executor.execStmtsLoop] at h
  | cons stmt rest ih =>
    intro st mut0
    rcases hx : executor.ExecuteStatement ops st stmt with ⟨res, st'⟩
    cases res with
    | error e0 =>
      have hstep : executor.execStmtsLoop ops st mut0 (stmt :: rest) =
          (mut0, .error e0, st') := by
        simp [executor.execStmtsLoop, hx]
      constructor
      · intro h
        rw [hstep] at h
        exact absurd h (by simp)
      · intro e h
        rw [hstep] at h
        have he : e0 = e := by
          simpa using h
        refine ⟨[], stmt, rest, st, by simp, ?_, ?_, ?_⟩
        · rw [hstep]
          simp [executor.execStmtsLoop]
        · rw [hx, ← he]
        · rw [hstep]
          simp
    | ok u =>
      cases u
      have hacc : (if executor.mutatesKind stmt then true else mut0) =
          (mut0 || !(isMatchStmt stmt)) := by
        rw [← mutatesKind_eq_not_match]
        cases executor.mutatesKind stmt <;> simp
      have hstep : executor.execStmtsLoop ops st mut0 (stmt :: rest) =
          executor.execStmtsLoop ops st' (mut0 || !(isMatchStmt stmt)) rest := by
        simp [executor.execStmtsLoop, hx, hacc]
      obtain ⟨ihOk, ihErr⟩ := ih st' (mut0 || !(isMatchStmt stmt))
      constructor
      · intro h
        rw [hstep] at h ⊢
        rw [ihOk h]
        simp [Bool.or_assoc]
      · intro e h
        rw [hstep] at h
        obtain ⟨pre, x, post, stx, hsplit, hpre, hfail, hmv⟩ := ihErr e h
        refine ⟨stmt :: pre, x, post, stx, by simp [hsplit], ?_, hfail, ?_⟩
        · have hstep2 : executor.execStmtsLoop ops st mut0 (stmt :: pre) =
              executor.execStmtsLoop ops st' (mut0 || !(isMatchStmt stmt)) pre := by
            simp [executor.execStmtsLoop, hx, hacc]
          rw [hstep2, hstep, hpre]
        · rw [hstep, hmv]
          simp [Bool.or_assoc]

/-- C7: over statement lists that execute fully, `ExecuteStatements`
returns a mutation bit that is true iff some statement is not a MATCH;
when a statement fails it short-circuits, and the bit reflects only the
prefix executed before the failing statement. -/
theorem c7_mutation_bit {σ : Type} (ops : catalog.StoreOps σ)
    (st : executor.ExecState σ) (stmts : List parser.Stmt) :
    ((executor.ExecuteStatements ops st stmts).2.1 = .ok () →
      (executor.ExecuteStatements ops st stmts).1 =
        stmts.any (fun t => !(isMatchStmt t))) ∧
    (∀ e, (executor.ExecuteStatements ops st stmts).2.1 = .error e →
      ∃ pre x post stx,
        stmts = pre ++ x :: post ∧
        executor.ExecuteStatements ops st pre =
          ((executor.ExecuteStatements ops st stmts).1, .ok (), stx) ∧
        (executor.ExecuteStatement ops stx x).1 = .error e ∧
        (executor.ExecuteStatements ops st stmts).1 =
          pre.any (fun t => !(isMatchStmt t))) := by
  obtain ⟨hOk, hErr⟩ := execStmtsLoop_mut_spec ops stmts st false
  constructor
  · intro h
    have := hOk h
    simpa [executor.ExecuteStatements] using this
  · intro e h
    obtain ⟨pre, x, post, stx, hsplit, hpre, hfail, hmv⟩ :=
      hErr e (by simpa [executor.ExecuteStatements] using h)
    exact ⟨pre, x, post, stx, hsplit, hpre, hfail, by
      simpa [executor.ExecuteStatements] using hmv⟩

/-- C7 witness: a batch of one MATCH statement executes successfully with
a false mutation bit. -/
theorem c7_mutation_bit_witness :
    (executor.ExecuteStatements executor.mockStore executor.newTestState [matchStmtFx]).1 =
      [matchStmtFx].any (fun t => !(isMatchStmt t)) :=
  (c7_mutation_bit executor.mockStore executor.newTestState [matchStmtFx]).1 rfl

/-- Helper: the prefix `takeWhile` keeps satisfies the predicate. -/
theorem all_takeWhile (p : Char → Bool) :
    ∀ l : List Char, (l.takeWhile p).all p = true := by
  intro l
  induction l with
  | nil => rfl
  | cons c t ih => by_cases h : p c <;> simp [List.takeWhile_cons, h, ih]

/-- Helper: `takeWhile` keeps a list all of whose elements satisfy the
predicate. -/
theorem takeWhile_of_all (p : Char → Bool) :
    ∀ l : List Char, l.all p = true → l.takeWhile p = l := by
  intro l
  induction l with
  | nil => intro _; rfl
  | cons c t ih =>
    intro h
    simp only [List.all_cons, Bool.and_eq_true] at h
    simp [List.takeWhile_cons, h.1, ih h.2]

/-- Helper: `takeWhile` stops exactly at the first failing element. -/
theorem takeWhile_append_stop (p : Char → Bool) (c : Char) (l2 : List Char) :
    ∀ l1 : List Char, l1.all p = true → p c = false →
      (l1 ++ c :: l2).takeWhile p = l1 := by
  intro l1
  induction l1 with
  | nil =>
    intro _ hc
    simp [List.takeWhile_cons, hc]
  | cons a t ih =>
    intro h hc
    simp only [List.all_cons, Bool.and_eq_true] at h
    simp [List.takeWhile_cons, h.1, ih h.2 hc]

/-- Helper: a keyword-table hit is one of the table's values. -/
theorem kwLookup_mem :
    ∀ (ks : List (String × parser.TokenType)) (s : String) (t : parser.TokenType),
      parser.kwLookup ks s = some t → t ∈ ks.map Prod.snd := by
  intro ks
  induction ks with
  | nil => intro s t h; simp [parser.kwLookup] at h
  | cons kv rest ih =>
    intro s t h
    simp only [parser.kwLookup] at h
    split at h
    · simp only [Option.some.injEq] at h
      simp [h]
    · simp [ih s t h]

/-- Helper: the keyword table never yields the NUMBER token type. -/
theorem lookupIdent_ne_number (s : String) : parser.LookupIdent s ≠ .NUMBER := by
  unfold parser.LookupIdent
  cases h : parser.kwLookup parser.keywords (catalog.strToUpper s) with
  | none => simp [h]
  | some t =>
    simp only [h]
    intro hc
    subst hc
    exact absurd (kwLookup_mem _ _ _ h) (by decide)

/-- Helper: identifier/keyword tokens are never NUMBER tokens. -/
theorem lexIdentOrKeyword_not_number (m : parser.Lexer) :
    (parser.lexIdentOrKeyword m).1.Typ ≠ .NUMBER := by
  unfold parser.lexIdentOrKeyword
  cases hk : parser.LookupIdent (String.mk (m.input.takeWhile parser.isIdentPart)) <;>
    simp only [hk] <;>
    first
      | exact absurd hk (lookupIdent_ne_number _)
      | simp [parser.mkTok]

/-- Helper: string-literal tokens are never NUMBER tokens. -/
theorem lexString_not_number (m : parser.Lexer) :
    (parser.lexString m).1.Typ ≠ .NUMBER := by
  unfold parser.lexString
  cases h : parser.scanStr (m.input.drop 1) with
  | none => simp [parser.errTok]
  | some p => simp [parser.mkTok]

/-- Helper: quoted-identifier tokens are never NUMBER tokens. -/
theorem lexQuotedIdent_not_number (m : parser.Lexer) :
    (parser.lexQuotedIdent m).1.Typ ≠ .NUMBER := by
  unfold parser.lexQuotedIdent
  cases h : parser.scanQuoted (m.input.drop 1) with
  | none => simp [parser.errTok]
  | some p => simp [parser.mkTok]

/-- Helper: shape check for a lexeme of digits, a dot, then digits. -/
theorem codeNumberLexeme_dotted (d : Char) (ds tl2 : List Char)
    (hall : (d :: ds).all Char.isDigit = true) (htl : tl2.all Char.isDigit = true) :
    codeNumberLexeme (String.mk ((d :: ds) ++ '.' :: tl2)) = true := by
  unfold codeNumberLexeme
  dsimp only
  rw [takeWhile_append_stop Char.isDigit '.' tl2 (d :: ds) hall (by decide)]
  rw [List.drop_left]
  simp [htl]

/-- Helper: shape check for a lexeme of digits only. -/
theorem codeNumberLexeme_plain (d : Char) (ds : List Char)
    (hall : (d :: ds).all Char.isDigit = true) :
    codeNumberLexeme (String.mk (d :: ds)) = true := by
  unfold codeNumberLexeme
  dsimp only
  rw [takeWhile_of_all Char.isDigit _ hall]
  simp [List.drop_length]

/-- Helper: every lexeme `lexNumber` builds is one or more digits, then
optionally a dot and zero or more digits. -/
theorem lexNumber_shape (m : parser.Lexer) (c : Char) (cs : List Char)
    (hm : m.input = c :: cs) (hc : c.isDigit = true) :
    codeNumberLexeme (parser.lexNumber m).1.Lit = true := by
  have hds : (c :: cs).takeWhile Char.isDigit = c :: cs.takeWhile Char.isDigit := by
    simp [List.takeWhile_cons, hc]
  have hall : ((c :: cs).takeWhile Char.isDigit).all Char.isDigit = true :=
    all_takeWhile Char.isDigit (c :: cs)
  cases hrest : (c :: cs).drop ((c :: cs).takeWhile Char.isDigit).length with
  | nil =>
    have hlit : (parser.lexNumber m).1.Lit = String.mk ((c :: cs).takeWhile Char.isDigit) := by
      unfold parser.lexNumber
      rw [hm]
      dsimp only
      rw [hrest]
      rfl
    rw [hlit, hds]
    exact codeNumberLexeme_plain c _ (by rw [← hds]; exact hall)
  | cons c2 tl =>
    by_cases h2 : c2 = '.'
    · subst h2
      have hlit : (parser.lexNumber m).1.Lit =
          String.mk ((c :: cs).takeWhile Char.isDigit ++ '.' :: tl.takeWhile Char.isDigit) := by
        unfold parser.lexNumber
        rw [hm]
        dsimp only
        rw [hrest]
        simp [parser.mkTok]
      rw [hlit, hds]
      exact codeNumberLexeme_dotted c _ _ (by rw [← hds]; exact hall)
        (all_takeWhile Char.isDigit tl)
    · have hlit : (parser.lexNumber m).1.Lit = String.mk ((c :: cs).takeWhile Char.isDigit) := by
        unfold parser.lexNumber
        rw [hm]
        dsimp only
        rw [hrest]
        simp [h2, parser.mkTok]
      rw [hlit, hds]
      exact codeNumberLexeme_plain c _ (by rw [← hds]; exact hall)

/-- C9 counterexample: the claim says a digit sequence followed by a dot
with no digit after it is never emitted as a single NUMBER lexeme, but
lexing the input `12.` yields exactly one NUMBER token with lexeme `12.`
(which fails the digits-dot-digits shape the spec states). -/
theorem c9_trailing_dot_number :
    parser.tokenize "12." =
      [{ Typ := .NUMBER, Lit := "12.", Line := 1, Column := 1 },
       { Typ := .EOF, Lit := "", Line := 1, Column := 4 }] ∧
    specNumberLexeme "12." = false := by
  exact ⟨rfl, rfl⟩

/-- Helper: the symbol switch arm never yields a NUMBER token kind. -/
theorem symbolType_ne_number (c : Char) (tl : parser.TokenType × String)
    (h : parser.symbolType c = some tl) : tl.1 ≠ parser.TokenType.NUMBER := by
  unfold parser.symbolType at h
  split_ifs at h <;>
    first
      | exact Option.noConfusion h
      | (injection h with h2; subst h2; simp)

set_option maxHeartbeats 1000000 in
/-- C9 (amended): every NUMBER token `NextToken` returns has a lexeme of
one or more digits optionally followed by a dot and ZERO or more digits
(the dot, once seen, is consumed even with no digit after it). -/
theorem c9_number_lexeme_shape :
    ∀ (fuel : Nat) (l : parser.Lexer),
      (parser.NextToken fuel l).1.Typ = .NUMBER →
      codeNumberLexeme (parser.NextToken fuel l).1.Lit = true := by
  intro fuel
  induction fuel with
  | zero =>
    intro l h
    simp [parser.NextToken, parser.errTok] at h
  | succ n ih =>
    intro l
    simp only [parser.NextToken]
    rcases hm : (parser.Lexer.skipWhitespace l).input with _ | ⟨c, cs⟩
    · simp [parser.mkTok]
    · simp only []
      split
      · exact ih _
      · split
        · split
          · exact ih _
          · simp [parser.errTok]
        · split
          · rename_i tl heq
            intro hT
            have htl : tl.1 = parser.TokenType.NUMBER := by
              simpa [parser.mkTok] using hT
            exact absurd htl (symbolType_ne_number c tl heq)
          · split
            · intro hT
              exact absurd hT (lexQuotedIdent_not_number _)
            · split
              · intro hT
                exact absurd hT (lexString_not_number _)
              · split
                · intro hT
                  exact absurd hT (lexIdentOrKeyword_not_number _)
                · split
                  · rename_i hdig
                    intro _
                    exact lexNumber_shape _ c cs hm hdig
                  · simp [parser.errTok]

/-- C9 witness for the amended shape: the NUMBER token of `45.67`. -/
theorem c9_number_lexeme_shape_witness :
    codeNumberLexeme (parser.NextToken 6 (parser.NewLexer "45.67")).1.Lit = true :=
  c9_number_lexeme_shape 6 (parser.NewLexer "45.67") rfl

end Grapho
